import Mathlib

/-!
Verification of the req HTTP client (github.com/adammpkins/req) against its
natural-language specification.  The development shallowly embeds the
tokenizer/parser (internal/parser/parser.go), the planner
(internal/planner/plan.go), and the executor (internal/runtime/executor.go)
as executable Lean functions, together with small models of the Go standard
library functions they call (strings, encoding/base64, time.ParseDuration,
net/url).  File-system, TTY and real-network effects are abstracted as
explicit oracle parameters.  All strings handled here are ASCII, matching the
command grammar; Go byte strings are modelled as Lean strings whose
characters have code points below 256.
-/

set_option maxRecDepth 100000

namespace Req

/-- Decidable equality of Except results, for evaluating concrete runs of
the embedded pipeline inside proofs. -/
instance {ε α : Type} [DecidableEq ε] [DecidableEq α] : DecidableEq (Except ε α) := fun x y =>
  match x, y with
  | .error a, .error b =>
    if h : a = b then .isTrue (by subst h; rfl)
    else .isFalse (fun hh => h (Except.error.inj hh))
  | .error _, .ok _ => .isFalse (fun hh => Except.noConfusion hh)
  | .ok _, .error _ => .isFalse (fun hh => Except.noConfusion hh)
  | .ok a, .ok b =>
    if h : a = b then .isTrue (by subst h; rfl)
    else .isFalse (fun hh => h (Except.ok.inj hh))

/-! ## Models of Go standard-library string helpers -/

/-- Single-quote character (code 39), used when writing concrete commands. -/
def sq : Char := Char.ofNat 39

/-- Double-quote character (code 34). -/
def dq : Char := Char.ofNat 34

/-- Backslash character (code 92). -/
def bsl : Char := Char.ofNat 92

/-- Open-brace character (code 123). -/
def obr : Char := Char.ofNat 123

/-- Whitespace predicate used by the model of strings.TrimSpace (ASCII subset
of Go unicode.IsSpace, enough for the command grammar). -/
def goIsSpace (c : Char) : Bool := c = ' ' || c = '\t' || c = '\n' || c = '\r'

/-- Model of strings.TrimSpace on a character list. -/
def goTrimList (l : List Char) : List Char :=
  ((l.dropWhile goIsSpace).reverse.dropWhile goIsSpace).reverse

/-- Model of strings.TrimSpace. -/
def goTrim (s : String) : String := ⟨goTrimList s.toList⟩

/-- Model of strings.ToLower (ASCII). -/
def goToLower (s : String) : String :=
  ⟨s.toList.map (fun c => if 'A' ≤ c && c ≤ 'Z' then Char.ofNat (c.toNat + 32) else c)⟩

/-- Model of strings.ToUpper (ASCII). -/
def goToUpper (s : String) : String :=
  ⟨s.toList.map (fun c => if 'a' ≤ c && c ≤ 'z' then Char.ofNat (c.toNat - 32) else c)⟩

/-- Decide whether pat is a prefix of the second list. -/
def listHasPre : List Char → List Char → Bool
  | [], _ => true
  | _ :: _, [] => false
  | a :: as, b :: bs => a = b && listHasPre as bs

/-- Decide whether pat occurs as a contiguous sublist. -/
def listHasSub (pat : List Char) : List Char → Bool
  | [] => pat.isEmpty
  | b :: bs => listHasPre pat (b :: bs) || listHasSub pat bs

/-- Model of strings.HasPrefix. -/
def goHasPre (s pre : String) : Bool := listHasPre pre.toList s.toList

/-- Model of strings.Contains. -/
def goContains (s sub : String) : Bool := listHasSub sub.toList s.toList

/-- Model of strings.Contains for a single character. -/
def goContainsChar (s : String) (c : Char) : Bool := s.toList.contains c

/-- Split a list at the first occurrence of c: some (before, after), or none
when c does not occur.  Models strings.Index followed by slicing. -/
def breakOnChar (c : Char) : List Char → Option (List Char × List Char)
  | [] => none
  | a :: rest =>
    if a = c then some ([], rest)
    else match breakOnChar c rest with
      | none => none
      | some (pre, post) => some (a :: pre, post)

/-- Model of strings.Split with a single-character separator (keeps empty
segments; the empty string yields one empty segment, as in Go). -/
def goSplitChar (sep : Char) : List Char → List (List Char)
  | [] => [[]]
  | c :: rest =>
    let r := goSplitChar sep rest
    if c = sep then [] :: r
    else match r with
      | [] => [[c]]
      | h :: t => (c :: h) :: t

/-- String wrapper for goSplitChar. -/
def goSplit (s : String) (sep : Char) : List String :=
  (goSplitChar sep s.toList).map (fun l => ⟨l⟩)

/-- Drop a prefix when present, else return the list unchanged
(models strings.TrimPrefix). -/
def listDropPre (pre l : List Char) : List Char :=
  if listHasPre pre l then l.drop pre.length else l

/-- Model of strings.TrimPrefix. -/
def goDropPre (s pre : String) : String := ⟨listDropPre pre.toList s.toList⟩

/-- Model of strings.HasSuffix. -/
def goHasSuf (s suf : String) : Bool := listHasPre suf.toList.reverse s.toList.reverse

/-- Go map[string]string lookup, modelled on an association list whose keys
are kept unique by goMapSet. -/
def goMapGet (m : List (String × String)) (k : String) : Option String :=
  match m with
  | [] => none
  | (k1, v1) :: rest => if k1 = k then some v1 else goMapGet rest k

/-- Go map[string]string assignment: replace the value in place when the key
is present, otherwise append the binding. -/
def goMapSet (m : List (String × String)) (k v : String) : List (String × String) :=
  match m with
  | [] => [(k, v)]
  | (k1, v1) :: rest => if k1 = k then (k, v) :: rest else (k1, v1) :: goMapSet rest k v

/-! ## Model of encoding/base64 StdEncoding -/

/-- Character of the standard base64 alphabet at a given index. -/
def b64Char (n : Nat) : Char :=
  ("ABCDEFGHIJKLMNOPQRSTUVWXYZabcdefghijklmnopqrstuvwxyz0123456789+/").toList.getD n 'A'

/-- Encode a byte list in standard base64 with padding. -/
def b64EncodeBytes : List Nat → List Char
  | [] => []
  | [a] => [b64Char (a / 4), b64Char (a % 4 * 16), '=', '=']
  | [a, b] => [b64Char (a / 4), b64Char (a % 4 * 16 + b / 16), b64Char (b % 16 * 4), '=']
  | a :: b :: c :: rest =>
    b64Char (a / 4) :: b64Char (a % 4 * 16 + b / 16) ::
      b64Char (b % 16 * 4 + c / 64) :: b64Char (c % 64) :: b64EncodeBytes rest

/-- Model of base64.StdEncoding.EncodeToString on the bytes of an ASCII
string (each character taken as one byte). -/
def base64Encode (s : String) : String :=
  ⟨b64EncodeBytes (s.toList.map (fun c => c.toNat % 256))⟩

/-! ## Model of time.ParseDuration -/

/-- Nanoseconds per unit, as in Go time.ParseDuration unit table. -/
def durUnitNs (u : String) : Option Nat :=
  if u = "ns" then some 1
  else if u = "us" then some 1000
  else if u = ⟨[Char.ofNat 181, 's']⟩ then some 1000
  else if u = ⟨[Char.ofNat 956, 's']⟩ then some 1000
  else if u = "ms" then some 1000000
  else if u = "s" then some 1000000000
  else if u = "m" then some 60000000000
  else if u = "h" then some 3600000000000
  else none

/-- Leading decimal digits of a character list. -/
def takeDigits (l : List Char) : List Char × List Char :=
  (l.takeWhile Char.isDigit, l.dropWhile Char.isDigit)

/-- Value of a digit list. -/
def digitsToNat (l : List Char) : Nat :=
  l.foldl (fun acc c => acc * 10 + (c.toNat - 48)) 0

/-- Unit name: characters until the next digit or dot. -/
def takeUnit (l : List Char) : List Char × List Char :=
  (l.takeWhile (fun c => !(c.isDigit || c = '.')), l.dropWhile (fun c => !(c.isDigit || c = '.')))

/-- One number-and-unit segment loop of time.ParseDuration (fuelled; the fuel
is the remaining length, which bounds the number of segments).  Fractions are
accumulated with integer arithmetic f * unit / 10^len, a faithful
approximation of Go float computation for the small literals this grammar
sees; no claim depends on sub-unit precision. -/
def parseDurLoop : Nat → List Char → Nat → Option Nat
  | _, [], acc => some acc
  | 0, _ :: _, _ => none
  | fuel + 1, l, acc =>
    let p1 := takeDigits l
    let intDigits := p1.1
    let afterFrac : Option (List Char) × List Char :=
      match p1.2 with
      | '.' :: rest =>
        let p2 := takeDigits rest
        (some p2.1, p2.2)
      | other => (none, other)
    let noNumber : Bool :=
      intDigits.isEmpty &&
        (match afterFrac.1 with
         | none => true
         | some fd => fd.isEmpty)
    if noNumber then none
    else
      let p3 := takeUnit afterFrac.2
      if p3.1.isEmpty then none
      else
        match durUnitNs ⟨p3.1⟩ with
        | none => none
        | some unit =>
          let fracPart : Nat :=
            match afterFrac.1 with
            | none => 0
            | some fd => digitsToNat fd * unit / 10 ^ fd.length
          parseDurLoop fuel p3.2 (acc + digitsToNat intDigits * unit + fracPart)

/-- Model of time.ParseDuration: optional sign, the special case 0, then a
sequence of number+unit segments; returns nanoseconds. -/
def parseDuration (s : String) : Option Int :=
  let l0 := s.toList
  let signed : Bool × List Char :=
    match l0 with
    | c :: rest => if c = '-' then (true, rest) else if c = '+' then (false, rest) else (false, l0)
    | [] => (false, [])
  let l := signed.2
  if l = ['0'] then some 0
  else if l.isEmpty then none
  else
    match parseDurLoop l.length l 0 with
    | none => none
    | some n => some (if signed.1 then -(n : Int) else (n : Int))

/-! ## Model of net/url (restricted to the http and https URLs the grammar accepts) -/

/-- Parsed URL: scheme, authority, path, raw query.  Fragments are stripped.
This models net/url.Parse for http(s) URLs and for opaque relative strings
(which Go parses as a bare path); parse errors cannot occur on the character
set the req grammar admits, so the model is total. -/
structure GoURL where
  scheme : String
  host : String
  path : String
  rawQuery : String
deriving DecidableEq

/-- Split off the fragment part beginning at a hash mark. -/
def stripFragment (l : List Char) : List Char := l.takeWhile (fun c => c ≠ '#')

/-- Parse host/path/query after the scheme marker. -/
def urlParseAfterScheme (scheme : String) (l : List Char) : GoURL :=
  let host := l.takeWhile (fun c => c ≠ '/' && c ≠ '?')
  let rest := l.dropWhile (fun c => c ≠ '/' && c ≠ '?')
  let path := rest.takeWhile (fun c => c ≠ '?')
  let query :=
    match rest.dropWhile (fun c => c ≠ '?') with
    | _ :: q => q
    | [] => []
  { scheme := scheme, host := ⟨host⟩, path := ⟨path⟩, rawQuery := ⟨query⟩ }

/-- Model of url.Parse (see GoURL). -/
def urlParse (s : String) : GoURL :=
  let l := stripFragment s.toList
  if listHasPre ("https://").toList l then
    urlParseAfterScheme "https" (l.drop 8)
  else if listHasPre ("http://").toList l then
    urlParseAfterScheme "http" (l.drop 7)
  else
    let path := l.takeWhile (fun c => c ≠ '?')
    let query :=
      match l.dropWhile (fun c => c ≠ '?') with
      | _ :: q => q
      | [] => []
    { scheme := "", host := "", path := ⟨path⟩, rawQuery := ⟨query⟩ }

/-- Model of URL.String for the URLs produced by urlParse. -/
def urlString (u : GoURL) : String :=
  (if u.scheme = "" then "" else u.scheme ++ "://" ++ u.host) ++ u.path ++
    (if u.rawQuery = "" then "" else "?" ++ u.rawQuery)

/-- Hexadecimal digit (uppercase), for percent escaping. -/
def hexDigit (n : Nat) : Char :=
  if n < 10 then Char.ofNat (48 + n) else Char.ofNat (55 + n)

/-- Characters url.QueryEscape leaves unescaped. -/
def queryUnreserved (c : Char) : Bool :=
  ('A' ≤ c && c ≤ 'Z') || ('a' ≤ c && c ≤ 'z') || ('0' ≤ c && c ≤ '9') ||
    c = '-' || c = '_' || c = '.' || c = '~'

/-- Model of url.QueryEscape on ASCII strings. -/
def queryEscape (s : String) : String :=
  ⟨s.toList.flatMap (fun c =>
    if queryUnreserved c then [c]
    else if c = ' ' then ['+']
    else ['%', hexDigit (c.toNat % 256 / 16), hexDigit (c.toNat % 16)])⟩

/-- Hex value of one character, if it is a hex digit. -/
def unhex (c : Char) : Option Nat :=
  let n := c.toNat
  if 48 ≤ n && n ≤ 57 then some (n - 48)
  else if 65 ≤ n && n ≤ 70 then some (n - 55)
  else if 97 ≤ n && n ≤ 102 then some (n - 87)
  else none

/-- Percent-decode a character list; plusToSpace selects query semantics.
Returns none on a malformed escape, as url.PathUnescape and
url.QueryUnescape report errors there. -/
def percentDecode (plusToSpace : Bool) : List Char → Option (List Char)
  | [] => some []
  | '%' :: h :: l :: rest =>
    match unhex h, unhex l with
    | some hi, some lo =>
      match percentDecode plusToSpace rest with
      | some r => some (Char.ofNat (hi * 16 + lo) :: r)
      | none => none
    | _, _ => none
  | '%' :: _ :: [] => none
  | '%' :: [] => none
  | c :: rest =>
    match percentDecode plusToSpace rest with
    | some r => some ((if plusToSpace && c = '+' then ' ' else c) :: r)
    | none => none

/-- Model of url.PathUnescape. -/
def pathUnescape (s : String) : Option String :=
  (percentDecode false s.toList).map (fun l => (⟨l⟩ : String))

/-- Model of url.QueryUnescape. -/
def queryUnescape (s : String) : Option String :=
  (percentDecode true s.toList).map (fun l => (⟨l⟩ : String))

/-- Lexicographic comparison of strings by character code, for the key sort
in url.Values.Encode. -/
def listLe : List Char → List Char → Bool
  | [], _ => true
  | _ :: _, [] => false
  | a :: as, b :: bs => if a = b then listLe as bs else decide (a.toNat < b.toNat)

/-- String order wrapper for listLe. -/
def strLe (a b : String) : Bool := listLe a.toList b.toList

/-- url.Values modelled as an association list from key to the ordered list
of values for that key. -/
def ValuesMap := List (String × List String)

/-- Model of url.Values.Add: append the value to the key entry, creating the
entry at the end when absent. -/
def valuesAdd (m : List (String × List String)) (k v : String) : List (String × List String) :=
  match m with
  | [] => [(k, [v])]
  | (k1, vs) :: rest => if k1 = k then (k1, vs ++ [v]) :: rest else (k1, vs) :: valuesAdd rest k v

/-- Parse one query segment key=value (or bare key) and add it. -/
def parseQuerySeg (m : List (String × List String)) (seg : List Char) : List (String × List String) :=
  match breakOnChar '=' seg with
  | some (k, v) =>
    let uk := (queryUnescape ⟨k⟩).getD ⟨k⟩
    let uv := (queryUnescape ⟨v⟩).getD ⟨v⟩
    valuesAdd m uk uv
  | none =>
    if seg.isEmpty then m else valuesAdd m ((queryUnescape ⟨seg⟩).getD ⟨seg⟩) ""

/-- Model of URL.Query / url.ParseQuery on a raw query string. -/
def parseQuery (raw : String) : List (String × List String) :=
  if raw = "" then []
  else (goSplitChar '&' raw.toList).foldl parseQuerySeg []

/-- Insert an entry into a key-sorted values list. -/
def insertSortedValues (x : String × List String) :
    List (String × List String) → List (String × List String)
  | [] => [x]
  | y :: ys => if strLe x.1 y.1 then x :: y :: ys else y :: insertSortedValues x ys

/-- Sort a values list by key (url.Values.Encode sorts keys). -/
def sortValues (m : List (String × List String)) : List (String × List String) :=
  m.foldr insertSortedValues []

/-- Model of url.Values.Encode: keys sorted, duplicate values kept in order,
each pair percent-escaped and joined with ampersands. -/
def valuesEncode (m : List (String × List String)) : String :=
  String.intercalate "&"
    ((sortValues m).flatMap (fun kv => kv.2.map (fun v => queryEscape kv.1 ++ "=" ++ queryEscape v)))

/-! ## Data model (internal/types/command.go) -/

/-- Verb enum (types.Verb). -/
inductive Verb where
  | read | save | send | upload | watch | inspect | authenticate | session
deriving DecidableEq

/-- Rendering of a verb, as the Go string constant behind types.Verb. -/
def verbStr : Verb → String
  | .read => "read"
  | .save => "save"
  | .send => "send"
  | .upload => "upload"
  | .watch => "watch"
  | .inspect => "inspect"
  | .authenticate => "authenticate"
  | .session => "session"

/-- IncludeItem: one entry of an include= clause. -/
structure IncludeItem where
  type : String
  name : String
  value : String
deriving DecidableEq

/-- AttachPart: one part of an attach= clause. -/
structure AttachPart where
  name : String
  filePath : String
  value : String
  filename : String
  type : String
deriving DecidableEq

/-- Empty attach part (Go zero value). -/
def AttachPart.empty : AttachPart :=
  { name := "", filePath := "", value := "", filename := "", type := "" }

/-- ExpectCheck: one assertion of an expect= clause. -/
structure ExpectCheck where
  type : String
  name : String
  value : String
  path : String
  regex : String
deriving DecidableEq

/-- Clause sum type (types.Clause and its variants).  Durations and sizes are
in nanoseconds and bytes respectively. -/
inductive Clause where
  | withClause (value : String) (type : String) (isFile : Bool) (isStdin : Bool)
  | headers (hs : List (String × String))
  | params (ps : List (String × String))
  | asClause (format : String)
  | toClause (destination : String)
  | using (method : String)
  | retry (count : Nat)
  | backoff (min max : Int)
  | timeout (duration : Int)
  | proxy (url : String)
  | pick (path : String)
  | every (interval : Int)
  | untilClause (predicate : String)
  | fieldClause (name value : String)
  | verbose
  | resume
  | includeClause (items : List IncludeItem)
  | attach (parts : List AttachPart) (boundary : String)
  | expect (checks : List ExpectCheck)
  | follow (policy : String)
  | under (duration : Int) (size : Int) (isSize : Bool)
  | via (url : String)
  | insecure (value : Bool)
deriving DecidableEq

/-- Command AST (types.Command). -/
structure Command where
  verb : Verb
  target : String
  clauses : List Clause
  sessionSubcommand : String
deriving DecidableEq

/-! ## Tokenizer (internal/parser/parser.go, tokenize and helpers) -/

/-- Token kinds (parser.tokenType).  str and num stand for tokenString and
tokenNumber; the tokenizer as written never emits num or dotdot. -/
inductive TokenType where
  | eof | word | url | equals | colon | dotdot | str | num | duration | flag
deriving DecidableEq

/-- Lexical token (parser.token). -/
structure Tok where
  typ : TokenType
  value : String
  pos : Nat
deriving DecidableEq

/-- Valid clause keys consulted by the clause-boundary lookahead
(parser.looksLikeNewClause). -/
def lookaheadClauseKeys : List String :=
  ["include", "expect", "with", "as", "to", "using", "retry", "under", "via",
    "follow", "insecure", "attach"]

/-- Scan for the first equals or space, remembering the word seen so far
(reversed); helper of looksLikeNewClause. -/
def looksLikeNewClauseAux : List Char → List Char → Bool
  | [], _ => false
  | c :: rest, seen =>
    if c = '=' then
      if seen.isEmpty then false
      else decide ((⟨goTrimList seen.reverse⟩ : String) ∈ lookaheadClauseKeys)
    else if c = ' ' || c = '\t' then false
    else looksLikeNewClauseAux rest (c :: seen)

/-- Model of parser.looksLikeNewClause: does the remainder start with a known
clause key immediately followed by an equals sign? -/
def looksLikeNewClause (l : List Char) : Bool :=
  looksLikeNewClauseAux l []

/-- Scanner state of tokenizeRespectingQuotes.  current is kept reversed. -/
structure TkState where
  parts : List String
  current : List Char
  inQuotes : Bool
  quoteChar : Char
  escape : Bool
  afterEquals : Bool

/-- Flush the current accumulator onto the parts list when non-empty. -/
def tkFlush (st : TkState) : List String :=
  if st.current.isEmpty then st.parts else st.parts ++ [⟨st.current.reverse⟩]

/-- Character loop of parser.tokenizeRespectingQuotes. -/
def tkLoop : List Char → TkState → List String
  | [], st => tkFlush st
  | r :: rest, st =>
    if st.escape then
      tkLoop rest { st with current := r :: st.current, escape := false }
    else if r = bsl then
      tkLoop rest { st with escape := true, current := r :: st.current }
    else if (r = sq || r = dq) && !st.inQuotes then
      tkLoop rest { st with inQuotes := true, quoteChar := r, current := r :: st.current }
    else if st.inQuotes && r = st.quoteChar then
      tkLoop rest { st with inQuotes := false, quoteChar := Char.ofNat 0, current := r :: st.current }
    else if r = '=' && !st.inQuotes then
      tkLoop rest { st with afterEquals := true, current := r :: st.current }
    else if !st.inQuotes && (r = ' ' || r = '\t' || r = '\n') then
      if st.afterEquals then
        let remaining := rest.dropWhile (fun c => c = ' ' || c = '\t' || c = '\n')
        if remaining.isEmpty || looksLikeNewClause remaining then
          tkLoop rest { st with parts := tkFlush st, current := [], afterEquals := false }
        else
          tkLoop rest { st with current := r :: st.current }
      else
        tkLoop rest { st with parts := tkFlush st, current := [], afterEquals := false }
    else
      tkLoop rest { st with current := r :: st.current }

/-- Model of parser.tokenizeRespectingQuotes: split on whitespace, keeping
quoted runs and clause values (after an equals sign) as single parts. -/
def tokenizeRespectingQuotes (s : String) : List String :=
  tkLoop s.toList
    { parts := [], current := [], inQuotes := false, quoteChar := Char.ofNat 0,
      escape := false, afterEquals := false }

/-- Model of parser.isSimpleWord. -/
def isSimpleWord (s : String) : Bool :=
  !s.toList.isEmpty &&
    s.toList.all (fun c =>
      ('a' ≤ c && c ≤ 'z') || ('A' ≤ c && c ≤ 'Z') || ('0' ≤ c && c ≤ '9') || c = '_')

/-- Model of parser.looksLikeURL. -/
def looksLikeURL (s : String) : Bool := goHasPre s "http://" || goHasPre s "https://"

/-- Model of parser.looksLikeDuration. -/
def looksLikeDuration (s : String) : Bool := (parseDuration s).isSome

/-- Model of parser.isFlag. -/
def isFlag (s : String) : Bool := s = "verbose" || s = "resume"

/-- Classify one whitespace-split part into tokens
(body of the loop in parser.tokenize). -/
def classifyPart (pos : Nat) (part : String) : List Tok :=
  if looksLikeURL part then [{ typ := .url, value := part, pos := pos }]
  else if goContainsChar part '=' then
    match breakOnChar '=' part.toList with
    | none => [{ typ := .word, value := part, pos := pos }]
    | some (keyL, valueL) =>
      let key : String := ⟨keyL⟩
      let value : String := ⟨valueL⟩
      let valueTrimmed := goTrim value
      let vt := valueTrimmed.toList
      let isQuoted : Bool :=
        vt.length ≥ 2 &&
          ((vt.headD ' ' = sq && vt.getLastD ' ' = sq) ||
            (vt.headD ' ' = dq && vt.getLastD ' ' = dq))
      let looksLikeJSON : Bool :=
        goHasPre valueTrimmed ⟨[obr]⟩ || goHasPre valueTrimmed "["
      let base : List Tok :=
        [{ typ := .word, value := key, pos := pos }, { typ := .equals, value := "=", pos := pos }]
      if !isQuoted && !looksLikeJSON && goContainsChar value ':' then
        match breakOnChar ':' value.toList with
        | none => base ++ [{ typ := .str, value := value, pos := pos }]
        | some (tyL, tvL) =>
          let typeName := goTrim ⟨tyL⟩
          if isSimpleWord typeName then
            base ++
              [{ typ := .word, value := typeName, pos := pos },
               { typ := .colon, value := ":", pos := pos },
               { typ := .str, value := ⟨tvL⟩, pos := pos }]
          else
            base ++ [{ typ := .str, value := value, pos := pos }]
      else if looksLikeURL value then
        base ++ [{ typ := .url, value := value, pos := pos }]
      else if looksLikeDuration value then
        base ++ [{ typ := .duration, value := value, pos := pos }]
      else
        base ++ [{ typ := .str, value := value, pos := pos }]
  else if isFlag part then [{ typ := .flag, value := part, pos := pos }]
  else [{ typ := .word, value := part, pos := pos }]

/-- Model of parser.tokenize: trim, split respecting quotes, classify every
part, and append the EOF sentinel. -/
def tokenize (input : String) : List Tok :=
  let trimmed := goTrim input
  if trimmed = "" then [{ typ := .eof, value := "", pos := 0 }]
  else
    let parts := tokenizeRespectingQuotes trimmed
    (parts.enum.flatMap (fun pi => classifyPart pi.1 pi.2)) ++
      [{ typ := .eof, value := "", pos := parts.length }]

/-! ## Grammar parser (internal/parser/parser.go) -/

/-- Model of parser.isValidHTTPMethod. -/
def isValidHTTPMethod (method : String) : Bool :=
  decide (goToUpper method ∈ ["GET", "POST", "PUT", "PATCH", "DELETE", "HEAD", "OPTIONS"])

/-- Structured parse error (parser.ParseError). -/
structure ParseError where
  position : Nat
  token : String
  message : String
  suggest : String
deriving DecidableEq

/-- Model of the Go three-way min used by the Levenshtein computation. -/
def min3 (a b c : Nat) : Nat :=
  if a < b && a < c then a else if b < c then b else c

/-- One row advance of the Levenshtein dynamic program: consume prev row and
current-cell seed, walking the second word. -/
def levGo (c : Char) : List Char → List Nat → Nat → List Nat
  | [], _, _ => []
  | b :: bs, p0 :: p1 :: ps, cur =>
    let cost := if c = b then 0 else 1
    let v := min3 (p1 + 1) (cur + 1) (p0 + cost)
    v :: levGo c bs (p1 :: ps) v
  | _ :: _, _, _ => []

/-- Fold levGo over the first word, producing the final row. -/
def levRows : List Char → List Char → List Nat → Nat → List Nat
  | [], _, prev, _ => prev
  | c :: cs, lb, prev, i => levRows cs lb (i :: levGo c lb prev i) (i + 1)

/-- Model of parser.levenshteinDistance. -/
def levenshteinDistance (a b : String) : Nat :=
  let la := a.toList
  let lb := b.toList
  if la.isEmpty then lb.length
  else if lb.isEmpty then la.length
  else (levRows la lb (List.range (lb.length + 1)) 1).getLastD 0

/-- Closest word of a vocabulary within Levenshtein distance two, or the
empty string (shared logic of suggestVerb and suggestClause). -/
def bestSuggestion (vocab : List String) (input : String) : String :=
  let best := vocab.foldl
    (fun acc v =>
      let d := levenshteinDistance input v
      if d < acc.2 then (v, d) else acc)
    ("", 999)
  if best.2 ≤ 2 then best.1 else ""

/-- Model of parser.suggestVerb. -/
def suggestVerb (input : String) : String :=
  bestSuggestion ["read", "save", "send", "upload", "watch", "inspect", "authenticate", "session"]
    input

/-- Model of parser.suggestClause. -/
def suggestClause (input : String) : String :=
  bestSuggestion
    ["with", "include", "attach", "expect", "headers", "params", "as", "to", "using",
      "retry", "backoff", "timeout", "under", "proxy", "via", "follow", "insecure",
      "pick", "every", "until", "field"] input

/-- Escape-processing loop inside parser.unquoteString. -/
def unquoteEsc : List Char → Bool → List Char
  | [], esc => if esc then [bsl] else []
  | c :: rest, true =>
    if c = bsl || c = sq || c = dq then c :: unquoteEsc rest false
    else bsl :: c :: unquoteEsc rest false
  | c :: rest, false =>
    if c = bsl then unquoteEsc rest true else c :: unquoteEsc rest false

/-- Model of parser.unquoteString: strip one matching layer of quotes and
process backslash escapes. -/
def unquoteString (s : String) : String :=
  let l := s.toList
  if l.length ≥ 2 &&
      ((l.headD ' ' = sq && l.getLastD ' ' = sq) || (l.headD ' ' = dq && l.getLastD ' ' = dq)) then
    ⟨unquoteEsc (l.drop 1).dropLast false⟩
  else s

/-- Default token, standing for the out-of-range access that the EOF sentinel
makes unreachable. -/
def eofTok : Tok := { typ := .eof, value := "", pos := 0 }

/-- Token at a position. -/
def getTok (tks : List Tok) (pos : Nat) : Tok := tks.getD pos eofTok

/-- Collect the value tokens of a clause: loop until EOF or the start of the
next clause (a word token followed by an equals token), returning the values
and the new position.  The fuel is the token count. -/
def collectValueParts (tks : List Tok) : Nat → Nat → List String × Nat
  | 0, pos => ([], pos)
  | fuel + 1, pos =>
    if pos ≥ tks.length then ([], pos)
    else
      let tok := getTok tks pos
      if tok.typ = .eof then ([], pos)
      else if tok.typ = .word && pos + 1 < tks.length && (getTok tks (pos + 1)).typ = .equals then
        ([], pos)
      else
        let r := collectValueParts tks fuel (pos + 1)
        (tok.value :: r.1, r.2)

/-- Join collected value tokens, suppressing the space around separator
tokens (the joining loops of parseIncludeClause, parseAttachClause and
parseExpectClause). -/
def joinValueRest (isSep : String → Bool) : String → List String → String
  | _, [] => ""
  | prev, p :: rest =>
    (if !isSep prev && !isSep p then " " else "") ++ p ++ joinValueRest isSep p rest

/-- Top of joinValueRest. -/
def joinValueParts (isSep : String → Bool) : List String → String
  | [] => ""
  | p :: rest => p ++ joinValueRest isSep p rest

/-- Item-splitting scan of parser.parseIncludeItems: a semicolon separates
items only when it is not at position zero and the trimmed remainder starts
with a header:, param: or cookie: tag.  Parts come out trimmed. -/
def includeSplitAux : List Char → List Char → Bool → List String
  | [], cur, _ => if cur.isEmpty then [] else [⟨goTrimList cur.reverse⟩]
  | c :: rest, cur, atStart =>
    if c = ';' && !atStart then
      let remaining := goTrimList rest
      if listHasPre ("header:").toList remaining || listHasPre ("param:").toList remaining ||
          listHasPre ("cookie:").toList remaining then
        (if cur.isEmpty then [] else [⟨goTrimList cur.reverse⟩]) ++ includeSplitAux rest [] false
      else includeSplitAux rest (c :: cur) false
    else includeSplitAux rest (c :: cur) false

/-- Model of parser.parseIncludeItem: dispatch one include item on its
leading tag. -/
def parseIncludeItem (part : String) : Except String IncludeItem :=
  match breakOnChar ':' part.toList with
  | none => .error ("missing colon in include item: " ++ part)
  | some (pre, post) =>
    let typeTag := goTrim ⟨pre⟩
    let rest := goTrim ⟨post⟩
    if typeTag = "header" then
      match breakOnChar ':' rest.toList with
      | none => .error ("header item missing Name colon Value: " ++ part)
      | some (n, v) =>
        .ok { type := "header", name := unquoteString (goTrim ⟨n⟩),
              value := unquoteString (goTrim ⟨v⟩) }
    else if typeTag = "param" then
      match breakOnChar '=' rest.toList with
      | none => .error ("param item missing equals: " ++ part)
      | some (k, v) =>
        .ok { type := "param", name := unquoteString (goTrim ⟨k⟩),
              value := unquoteString (goTrim ⟨v⟩) }
    else if typeTag = "cookie" then
      match breakOnChar '=' rest.toList with
      | none => .error ("cookie item missing equals: " ++ part)
      | some (k, v) =>
        .ok { type := "cookie", name := unquoteString (goTrim ⟨k⟩),
              value := unquoteString (goTrim ⟨v⟩) }
    else if typeTag = "basic" then
      let creds := unquoteString (goTrim rest)
      if goContainsChar creds ':' then
        .ok { type := "basic", name := "", value := creds }
      else .error ("basic item must be in format username:password: " ++ part)
    else
      .error ("unknown include item tag: " ++ typeTag ++
        " (expected header, param, cookie, or basic)")

/-- Parse every non-empty trimmed part into an include item. -/
def parseIncludeItemList : List String → Except String (List IncludeItem)
  | [] => .ok []
  | p :: rest =>
    let p := goTrim p
    if p = "" then parseIncludeItemList rest
    else
      match parseIncludeItem p with
      | .error e => .error e
      | .ok item =>
        match parseIncludeItemList rest with
        | .error e => .error e
        | .ok items => .ok (item :: items)

/-- Model of parser.parseIncludeItems. -/
def parseIncludeItems (value : String) : Except String (List IncludeItem) :=
  let value := goTrim value
  if value = "" then .ok []
  else
    let parts := includeSplitAux value.toList [] true
    let parts := if parts.isEmpty then [value] else parts
    parseIncludeItemList parts

/-- Quote-respecting split loop (parser.splitRespectingQuotes); a delimiter
flushes the accumulator even when it is empty. -/
def splitRespQAux (delim : Char) : List Char → List Char → Bool → Bool → List String
  | [], cur, _, _ => if cur.isEmpty then [] else [⟨cur.reverse⟩]
  | r :: rest, cur, inQ, esc =>
    if esc then splitRespQAux delim rest (r :: cur) inQ false
    else if r = bsl then splitRespQAux delim rest (r :: cur) inQ true
    else if r = sq || r = dq then splitRespQAux delim rest (r :: cur) (!inQ) esc
    else if r = delim && !inQ then (⟨cur.reverse⟩ : String) :: splitRespQAux delim rest [] inQ esc
    else splitRespQAux delim rest (r :: cur) inQ esc

/-- Model of parser.splitRespectingQuotes. -/
def splitRespectingQuotes (s : String) (delim : Char) : List String :=
  splitRespQAux delim s.toList [] false false

/-- Model of parser.parseExpectCheck. -/
def parseExpectCheck (part : String) : Except String ExpectCheck :=
  let unq := unquoteString part
  if goHasPre unq "status:" then
    .ok { type := "status", name := "", value := goTrim (goDropPre unq "status:"),
          path := "", regex := "" }
  else if goHasPre unq "header:" then
    let rest := goTrim (goDropPre unq "header:")
    match breakOnChar '=' rest.toList with
    | none => .error ("header check missing equals: " ++ part)
    | some (n, v) =>
      .ok { type := "header", name := goTrim ⟨n⟩, value := unquoteString (goTrim ⟨v⟩),
            path := "", regex := "" }
  else if goHasPre unq "contains:" then
    .ok { type := "contains", name := "",
          value := unquoteString (goTrim (goDropPre unq "contains:")), path := "", regex := "" }
  else if goHasPre unq "jsonpath:" then
    .ok { type := "jsonpath", name := "", value := "",
          path := unquoteString (goTrim (goDropPre unq "jsonpath:")), regex := "" }
  else if goHasPre unq "matches:" then
    .ok { type := "matches", name := "", value := "", path := "",
          regex := unquoteString (goTrim (goDropPre unq "matches:")) }
  else .error ("unknown expect check type: " ++ part)

/-- Parse every non-empty trimmed comma segment into an expect check. -/
def parseExpectCheckList : List String → Except String (List ExpectCheck)
  | [] => .ok []
  | p :: rest =>
    let p := goTrim p
    if p = "" then parseExpectCheckList rest
    else
      match parseExpectCheck p with
      | .error e => .error e
      | .ok c =>
        match parseExpectCheckList rest with
        | .error e => .error e
        | .ok cs => .ok (c :: cs)

/-- Model of parser.parseExpectChecks. -/
def parseExpectChecks (value : String) : Except String (List ExpectCheck) :=
  parseExpectCheckList (splitRespectingQuotes value ',')

/-- Apply one key=value pair of an attach part spec (switch inside
parser.parseAttachPart). -/
def applyAttachPair (part : AttachPart) (pair : String) : Except String AttachPart :=
  let pair := goTrim pair
  match breakOnChar '=' pair.toList with
  | none => .error ("missing equals in attach part: " ++ pair)
  | some (k, v) =>
    let key := goTrim ⟨k⟩
    let value := unquoteString (goTrim ⟨v⟩)
    if key = "name" then .ok { part with name := value }
    else if key = "file" then
      .ok { part with filePath := if goHasPre value "@" then ⟨value.toList.drop 1⟩ else value }
    else if key = "value" then .ok { part with value := value }
    else if key = "filename" then .ok { part with filename := value }
    else if key = "type" then .ok { part with type := value }
    else .error ("unknown attach part key: " ++ key)

/-- Fold applyAttachPair over the comma-separated pairs. -/
def applyAttachPairs : AttachPart → List String → Except String AttachPart
  | part, [] => .ok part
  | part, p :: rest =>
    match applyAttachPair part p with
    | .error e => .error e
    | .ok part2 => applyAttachPairs part2 rest

/-- Model of parser.parseAttachPart. -/
def parseAttachPart (spec : String) : Except String AttachPart :=
  match applyAttachPairs AttachPart.empty (splitRespectingQuotes spec ',') with
  | .error e => .error e
  | .ok part =>
    if part.name = "" then .error "attach part missing required \x27name=\x27"
    else if part.filePath ≠ "" && part.value ≠ "" then
      .error "attach part cannot have both \x27file=\x27 and \x27value=\x27"
    else if part.filePath = "" && part.value = "" then
      .error "attach part must have either \x27file=\x27 or \x27value=\x27"
    else .ok part

/-- Loop of parser.parseAttachItems over semicolon-separated items. -/
def parseAttachItemList : List String → List AttachPart → String →
    Except String (List AttachPart × String)
  | [], parts, boundary => .ok (parts, boundary)
  | item :: rest, parts, boundary =>
    let item := goTrim item
    if item = "" then parseAttachItemList rest parts boundary
    else if goHasPre item "boundary:" then
      parseAttachItemList rest parts (unquoteString (goTrim (goDropPre item "boundary:")))
    else if !goHasPre item "part:" then
      .error ("expected \x27part:\x27 or \x27boundary:\x27, got: " ++ item)
    else
      match parseAttachPart (goTrim (goDropPre item "part:")) with
      | .error e => .error e
      | .ok part => parseAttachItemList rest (parts ++ [part]) boundary

/-- Model of parser.parseAttachItems. -/
def parseAttachItems (value : String) : Except String (List AttachPart × String) :=
  parseAttachItemList (splitRespectingQuotes value ';') [] ""

/-- Try each size suffix in turn (helper of parseSize). -/
def parseSizeSuffixes (s : String) : List (String × Nat) → Option Int
  | [] => none
  | (suf, mult) :: rest =>
    if goHasSuf s suf then
      let numL := s.toList.take (s.toList.length - suf.toList.length)
      let ip := takeDigits numL
      let fp : List Char :=
        match ip.2 with
        | '.' :: r2 => (takeDigits r2).1
        | _ => []
      if ip.1.isEmpty && fp.isEmpty then none
      else some ((digitsToNat ip.1 * mult + digitsToNat fp * mult / 10 ^ fp.length : Nat) : Int)
    else parseSizeSuffixes s rest

/-- Model of parser.parseSize.  Go iterates a map of suffixes in unspecified
order; the model fixes the order B, KB, MB, GB, TB.  The number before the
suffix is read as Sscanf %f reads a leading float. -/
def parseSize (s : String) : Option Int :=
  let s := goToUpper (goTrim s)
  parseSizeSuffixes s [("B", 1), ("KB", 1024), ("MB", 1048576), ("GB", 1073741824),
    ("TB", 1099511627776)]

/-- Result of one clause sub-parser: the clause and the new position. -/
def ClauseResult := Except ParseError (Clause × Nat)

/-- Model of parser.parseWithClause. -/
def parseWithClause (tks : List Tok) (pos : Nat) : ClauseResult :=
  if pos ≥ tks.length then .error ⟨pos, "", "expected with value", ""⟩
  else
    let tok := getTok tks pos
    if tok.typ = .word && pos + 1 < tks.length && (getTok tks (pos + 1)).typ = .colon then
      let typeName := tok.value
      let pos2 := pos + 2
      if pos2 ≥ tks.length then .error ⟨pos2, "", "expected with value", ""⟩
      else
        let value := (getTok tks pos2).value
        let isFile := goHasPre value "@" && value ≠ "@-"
        let isStdin := value = "@-"
        let value := if isFile then (⟨value.toList.drop 1⟩ : String) else value
        .ok (.withClause value typeName isFile isStdin, pos2 + 1)
    else
      let c := collectValueParts tks tks.length pos
      if c.1.isEmpty then .error ⟨c.2, "", "expected with value", ""⟩
      else
        let value := unquoteString (String.intercalate " " c.1)
        let isFile := goHasPre value "@" && value ≠ "@-"
        let isStdin := value = "@-"
        let value := if isFile then (⟨value.toList.drop 1⟩ : String) else value
        let trimmed := goTrim value
        let typeInferred : String :=
          if !isFile && !isStdin && (goHasPre trimmed ⟨[obr]⟩ || goHasPre trimmed "[") then "json"
          else ""
        .ok (.withClause value typeInferred isFile isStdin, c.2)

/-- Model of parser.parseHeadersClause (a stub returning an empty map, as in
the source). -/
def parseHeadersClause (_tks : List Tok) (pos : Nat) : ClauseResult :=
  .ok (.headers [], pos)

/-- Model of parser.parseParamsClause (a stub returning an empty map, as in
the source). -/
def parseParamsClause (_tks : List Tok) (pos : Nat) : ClauseResult :=
  .ok (.params [], pos)

/-- Model of parser.parseAsClause. -/
def parseAsClause (tks : List Tok) (pos : Nat) : ClauseResult :=
  if pos ≥ tks.length then .error ⟨pos, "", "expected format", ""⟩
  else .ok (.asClause (getTok tks pos).value, pos + 1)

/-- Model of parser.parseToClause. -/
def parseToClause (tks : List Tok) (pos : Nat) : ClauseResult :=
  if pos ≥ tks.length then .error ⟨pos, "", "expected destination", ""⟩
  else .ok (.toClause (getTok tks pos).value, pos + 1)

/-- Model of parser.parseUsingClause. -/
def parseUsingClause (tks : List Tok) (pos : Nat) : ClauseResult :=
  if pos ≥ tks.length then .error ⟨pos, "", "expected HTTP method", ""⟩
  else
    let tok := getTok tks pos
    let method := goToUpper tok.value
    if !isValidHTTPMethod method then
      .error ⟨tok.pos, tok.value,
        "invalid HTTP method: " ++ tok.value ++
          " (valid methods: GET, POST, PUT, PATCH, DELETE, HEAD, OPTIONS)", ""⟩
    else .ok (.using method, pos + 1)

/-- Model of parser.parseRetryClause: the count token is consumed, but the
count is the constant three; the numeric branch never parses the number. -/
def parseRetryClause (tks : List Tok) (pos : Nat) : ClauseResult :=
  if pos ≥ tks.length then .error ⟨pos, "", "expected retry count", ""⟩
  else .ok (.retry 3, pos + 1)

/-- Model of parser.parseBackoffClause.  The tokenizer never emits a dotdot
token, so this parser always reports the expected-dotdot error in practice. -/
def parseBackoffClause (tks : List Tok) (pos : Nat) : ClauseResult :=
  if pos + 2 ≥ tks.length then .error ⟨pos, "", "expected backoff range", ""⟩
  else
    let minTok := getTok tks pos
    if (getTok tks (pos + 1)).typ ≠ .dotdot then
      .error ⟨pos + 1, (getTok tks (pos + 1)).value, "expected ..", ""⟩
    else
      let maxTok := getTok tks (pos + 2)
      match parseDuration minTok.value with
      | none => .error ⟨minTok.pos, minTok.value, "invalid duration", ""⟩
      | some minD =>
        match parseDuration maxTok.value with
        | none => .error ⟨maxTok.pos, maxTok.value, "invalid duration", ""⟩
        | some maxD => .ok (.backoff minD maxD, pos + 3)

/-- Model of parser.parseTimeoutClause. -/
def parseTimeoutClause (tks : List Tok) (pos : Nat) : ClauseResult :=
  if pos ≥ tks.length then .error ⟨pos, "", "expected timeout duration", ""⟩
  else
    let tok := getTok tks pos
    match parseDuration tok.value with
    | none => .error ⟨tok.pos, tok.value, "invalid duration", ""⟩
    | some d => .ok (.timeout d, pos + 1)

/-- Model of parser.parseProxyClause. -/
def parseProxyClause (tks : List Tok) (pos : Nat) : ClauseResult :=
  if pos ≥ tks.length then .error ⟨pos, "", "expected proxy URL", ""⟩
  else .ok (.proxy (getTok tks pos).value, pos + 1)

/-- Model of parser.parsePickClause. -/
def parsePickClause (tks : List Tok) (pos : Nat) : ClauseResult :=
  if pos ≥ tks.length then .error ⟨pos, "", "expected JSONPath expression", ""⟩
  else .ok (.pick (getTok tks pos).value, pos + 1)

/-- Model of parser.parseEveryClause. -/
def parseEveryClause (tks : List Tok) (pos : Nat) : ClauseResult :=
  if pos ≥ tks.length then .error ⟨pos, "", "expected interval duration", ""⟩
  else
    let tok := getTok tks pos
    match parseDuration tok.value with
    | none => .error ⟨tok.pos, tok.value, "invalid duration", ""⟩
    | some d => .ok (.every d, pos + 1)

/-- Model of parser.parseUntilClause. -/
def parseUntilClause (tks : List Tok) (pos : Nat) : ClauseResult :=
  if pos ≥ tks.length then .error ⟨pos, "", "expected predicate", ""⟩
  else .ok (.untilClause (getTok tks pos).value, pos + 1)

/-- Model of parser.parseFieldClause. -/
def parseFieldClause (tks : List Tok) (pos : Nat) : ClauseResult :=
  if pos ≥ tks.length then .error ⟨pos, "", "expected field name", ""⟩
  else
    let nameTok := getTok tks pos
    if pos + 1 ≥ tks.length || (getTok tks (pos + 1)).typ ≠ .equals then
      .error ⟨pos + 1, "", "expected =", ""⟩
    else if pos + 2 ≥ tks.length then .error ⟨pos + 2, "", "expected field value", ""⟩
    else .ok (.fieldClause nameTok.value (getTok tks (pos + 2)).value, pos + 3)

/-- Model of parser.parseFollowClause. -/
def parseFollowClause (tks : List Tok) (pos : Nat) : ClauseResult :=
  if pos ≥ tks.length then .error ⟨pos, "", "expected follow value", ""⟩
  else
    let tok := getTok tks pos
    if goToLower (goTrim tok.value) ≠ "smart" then
      .error ⟨tok.pos, tok.value, "follow accepts only \x27smart\x27", ""⟩
    else .ok (.follow "smart", pos + 1)

/-- Model of parser.parseUnderClause. -/
def parseUnderClause (tks : List Tok) (pos : Nat) : ClauseResult :=
  if pos ≥ tks.length then .error ⟨pos, "", "expected under value", ""⟩
  else
    let tok := getTok tks pos
    let value := goTrim tok.value
    match parseDuration value with
    | some d => .ok (.under d 0 false, pos + 1)
    | none =>
      match parseSize value with
      | some sz => .ok (.under 0 sz true, pos + 1)
      | none =>
        .error ⟨tok.pos, tok.value,
          "under value must be a duration (e.g., 30s) or size (e.g., 10MB)", ""⟩

/-- Model of parser.parseInsecureClause. -/
def parseInsecureClause (tks : List Tok) (pos : Nat) : ClauseResult :=
  if pos ≥ tks.length then .error ⟨pos, "", "expected insecure value", ""⟩
  else
    let tok := getTok tks pos
    let value := goToLower (goTrim tok.value)
    if value ≠ "true" && value ≠ "false" then
      .error ⟨tok.pos, tok.value, "insecure accepts only \x27true\x27 or \x27false\x27", ""⟩
    else .ok (.insecure (value = "true"), pos + 1)

/-- Model of parser.parseViaClause. -/
def parseViaClause (tks : List Tok) (pos : Nat) : ClauseResult :=
  if pos ≥ tks.length then .error ⟨pos, "", "expected via URL", ""⟩
  else .ok (.via (getTok tks pos).value, pos + 1)

/-- Model of parser.parseIncludeClause. -/
def parseIncludeClause (tks : List Tok) (pos : Nat) : ClauseResult :=
  let c := collectValueParts tks tks.length pos
  if c.1.isEmpty then .error ⟨c.2, "", "expected include value", ""⟩
  else
    let value := unquoteString (joinValueParts (fun s => s = ":" || s = ";") c.1)
    match parseIncludeItems value with
    | .error e => .error ⟨c.2, value, e, ""⟩
    | .ok items => .ok (.includeClause items, c.2)

/-- Model of parser.parseAttachClause. -/
def parseAttachClause (tks : List Tok) (pos : Nat) : ClauseResult :=
  let c := collectValueParts tks tks.length pos
  if c.1.isEmpty then .error ⟨c.2, "", "expected attach value", ""⟩
  else
    let value := unquoteString (joinValueParts (fun s => s = ":" || s = ";") c.1)
    match parseAttachItems value with
    | .error e => .error ⟨c.2, value, e, ""⟩
    | .ok pb => .ok (.attach pb.1 pb.2, c.2)

/-- Model of parser.parseExpectClause. -/
def parseExpectClause (tks : List Tok) (pos : Nat) : ClauseResult :=
  let c := collectValueParts tks tks.length pos
  if c.1.isEmpty then .error ⟨c.2, "", "expected expect value", ""⟩
  else
    let value := unquoteString (joinValueParts (fun s => s = ":") c.1)
    match parseExpectChecks value with
    | .error e => .error ⟨c.2, value, e, ""⟩
    | .ok checks => .ok (.expect checks, c.2)

/-- Model of parser.getSingletonKey: the singleton key of a clause, or the
empty string for repeatable clauses. -/
def getSingletonKey : Clause → String
  | .using _ => "using"
  | .withClause _ _ _ _ => "with"
  | .expect _ => "expect"
  | .asClause _ => "as"
  | .toClause _ => "to"
  | .retry _ => "retry"
  | .under _ _ _ => "under"
  | .via _ => "via"
  | .insecure _ => "insecure"
  | .follow _ => "follow"
  | .timeout _ => "timeout"
  | .backoff _ _ => "backoff"
  | .pick _ => "pick"
  | .every _ => "every"
  | .untilClause _ => "until"
  | .proxy _ => "proxy"
  | .fieldClause _ _ => "field"
  | .verbose => "verbose"
  | .resume => "resume"
  | .includeClause _ => ""
  | .attach _ _ => ""
  | .headers _ => ""
  | .params _ => ""

/-- Model of parser.parseClause: dispatch a clause by flag or key. -/
def parseClause (tks : List Tok) (pos : Nat) : ClauseResult :=
  if pos ≥ tks.length then .error ⟨pos, "", "expected clause", ""⟩
  else
    let tok := getTok tks pos
    if tok.typ = .flag && tok.value = "verbose" then .ok (.verbose, pos + 1)
    else if tok.typ = .flag && tok.value = "resume" then .ok (.resume, pos + 1)
    else if tok.typ = .word && pos + 1 < tks.length && (getTok tks (pos + 1)).typ = .equals then
      let key := tok.value
      let pos2 := pos + 2
      if key = "with" then parseWithClause tks pos2
      else if key = "include" then parseIncludeClause tks pos2
      else if key = "attach" then parseAttachClause tks pos2
      else if key = "expect" then parseExpectClause tks pos2
      else if key = "headers" then parseHeadersClause tks pos2
      else if key = "params" then parseParamsClause tks pos2
      else if key = "as" then parseAsClause tks pos2
      else if key = "to" then parseToClause tks pos2
      else if key = "using" then parseUsingClause tks pos2
      else if key = "retry" then parseRetryClause tks pos2
      else if key = "backoff" then parseBackoffClause tks pos2
      else if key = "timeout" then parseTimeoutClause tks pos2
      else if key = "under" then parseUnderClause tks pos2
      else if key = "proxy" then parseProxyClause tks pos2
      else if key = "via" then parseViaClause tks pos2
      else if key = "follow" then parseFollowClause tks pos2
      else if key = "insecure" then parseInsecureClause tks pos2
      else if key = "pick" then parsePickClause tks pos2
      else if key = "every" then parseEveryClause tks pos2
      else if key = "until" then parseUntilClause tks pos2
      else if key = "field" then parseFieldClause tks pos2
      else .error ⟨tok.pos, key, "unknown clause", suggestClause key⟩
    else .error ⟨tok.pos, tok.value, "expected clause", ""⟩

/-- Model of the clause loop in parser.parseClauses, with the singleton
seen-set; the fuel is the token count. -/
def parseClausesAux (tks : List Tok) : Nat → Nat → List String → Except ParseError (List Clause)
  | 0, _, _ => .ok []
  | fuel + 1, pos, seen =>
    if pos ≥ tks.length then .ok []
    else
      let tok := getTok tks pos
      if tok.typ = .eof then .ok []
      else
        match parseClause tks pos with
        | .error e => .error e
        | .ok (clause, pos2) =>
          let key := getSingletonKey clause
          if key ≠ "" && seen.contains key then
            .error ⟨tok.pos, tok.value, "duplicate singleton clause \x27" ++ key ++ "\x27",
              "remove duplicate \x27" ++ key ++ "=\x27 clause"⟩
          else
            match parseClausesAux tks fuel pos2 (if key ≠ "" then key :: seen else seen) with
            | .error e => .error e
            | .ok cs => .ok (clause :: cs)

/-- Model of parser.parseClauses. -/
def parseClauses (tks : List Tok) (pos : Nat) : Except ParseError (List Clause) :=
  parseClausesAux tks tks.length pos []

/-- Model of parser.parseVerb. -/
def parseVerb (tks : List Tok) (pos : Nat) : Except ParseError (Verb × Nat) :=
  if pos ≥ tks.length then .error ⟨pos, "", "expected verb", ""⟩
  else
    let tok := getTok tks pos
    if tok.typ ≠ .word then .error ⟨tok.pos, tok.value, "expected verb", ""⟩
    else if tok.value = "read" then .ok (.read, pos + 1)
    else if tok.value = "save" then .ok (.save, pos + 1)
    else if tok.value = "send" then .ok (.send, pos + 1)
    else if tok.value = "upload" then .ok (.upload, pos + 1)
    else if tok.value = "watch" then .ok (.watch, pos + 1)
    else if tok.value = "inspect" then .ok (.inspect, pos + 1)
    else if tok.value = "authenticate" then .ok (.authenticate, pos + 1)
    else if tok.value = "session" then .ok (.session, pos + 1)
    else .error ⟨tok.pos, tok.value, "unknown verb", suggestVerb tok.value⟩

/-- Model of parser.parseTarget. -/
def parseTarget (tks : List Tok) (pos : Nat) : Except ParseError (String × Nat) :=
  if pos ≥ tks.length then .error ⟨pos, "", "expected target URL or host", ""⟩
  else
    let tok := getTok tks pos
    if tok.typ = .url then .ok (tok.value, pos + 1)
    else if tok.typ = .word && (goContainsChar tok.value '.' || goContainsChar tok.value ':') then
      .ok ("https://" ++ tok.value, pos + 1)
    else .error ⟨tok.pos, tok.value, "expected URL or host", ""⟩

/-- Model of parser.parseCommand. -/
def parseCommand (tks : List Tok) : Except ParseError Command :=
  match parseVerb tks 0 with
  | .error e => .error e
  | .ok (verb, pos1) =>
    let subState : Except ParseError (String × Nat) :=
      if verb = .session then
        if pos1 ≥ tks.length then
          .error ⟨pos1, "", "expected session subcommand (show, clear, use)", ""⟩
        else
          let tok := getTok tks pos1
          if tok.typ = .word then
            if tok.value = "show" || tok.value = "clear" || tok.value = "use" then
              .ok (tok.value, pos1 + 1)
            else
              .error ⟨tok.pos, tok.value,
                "unknown session subcommand (expected show, clear, or use)", ""⟩
          else .ok ("", pos1)
      else .ok ("", pos1)
    match subState with
    | .error e => .error e
    | .ok (subcmd, pos2) =>
      match parseTarget tks pos2 with
      | .error e => .error e
      | .ok (target, pos3) =>
        match parseClauses tks pos3 with
        | .error e => .error e
        | .ok clauses =>
          .ok { verb := verb, target := target, clauses := clauses,
                sessionSubcommand := subcmd }

/-- Model of parser.Parse: tokenize and parse a whole command line. -/
def Parse (input : String) : Except ParseError Command :=
  parseCommand (tokenize input)

/-! ## Planner (internal/planner/plan.go) -/

/-- Body plan (planner.BodyPlan). -/
structure BodyPlan where
  type : String
  content : String
  filePath : String
  field : String
  attachParts : List AttachPart
  boundary : String
deriving DecidableEq

/-- Empty body plan (Go zero value). -/
def BodyPlan.empty : BodyPlan :=
  { type := "", content := "", filePath := "", field := "", attachParts := [], boundary := "" }

/-- Output plan (planner.OutputPlan). -/
structure OutputPlan where
  format : String
  destination : String
  pick : String
deriving DecidableEq

/-- Retry plan (planner.RetryPlan); durations in nanoseconds. -/
structure RetryPlan where
  count : Nat
  backoffMin : Int
  backoffMax : Int
deriving DecidableEq

/-- Execution plan (planner.ExecutionPlan).  Go maps become association
lists with unique keys maintained by goMapSet. -/
structure ExecutionPlan where
  verb : Verb
  method : String
  url : String
  headers : List (String × String)
  queryParams : List (String × String)
  cookies : List (String × String)
  body : Option BodyPlan
  output : Option OutputPlan
  retry : Option RetryPlan
  timeout : Option Int
  sizeLimit : Option Int
  proxy : String
  insecure : Bool
  verbose : Bool
  resume : Bool
  follow : String
  expect : List ExpectCheck
deriving DecidableEq

/-- Fresh plan as built at the top of planner.Plan. -/
def initPlan (verb : Verb) (url : String) : ExecutionPlan :=
  { verb := verb, method := "", url := url, headers := [], queryParams := [], cookies := [],
    body := none, output := none, retry := none, timeout := none, sizeLimit := none,
    proxy := "", insecure := false, verbose := false, resume := false, follow := "",
    expect := [] }

/-- Model of planner.applyVerbDefaults. -/
def applyVerbDefaults (verb : Verb) (plan : ExecutionPlan) : ExecutionPlan :=
  match verb with
  | .read => { plan with method := "GET", output := some ⟨"auto", "", ""⟩ }
  | .save => { plan with method := "GET", output := some ⟨"raw", "", ""⟩ }
  | .send => { plan with method := "GET", output := some ⟨"auto", "", ""⟩ }
  | .upload => { plan with method := "POST", output := some ⟨"auto", "", ""⟩ }
  | .watch => { plan with method := "GET", output := some ⟨"auto", "", ""⟩ }
  | .inspect => { plan with method := "HEAD", output := some ⟨"json", "", ""⟩ }
  | .authenticate => { plan with method := "POST", output := some ⟨"auto", "", ""⟩ }
  | .session => { plan with method := "GET", output := some ⟨"auto", "", ""⟩ }

/-- Allowed using= methods per verb (the allowedMethods table in
planner.validateUsingClause); verbs absent from the table allow any method. -/
def allowedMethodsFor : Verb → Option (List String)
  | .read => some ["GET", "HEAD", "OPTIONS"]
  | .save => some ["GET", "POST"]
  | .send => some ["POST", "PUT", "PATCH"]
  | .upload => some ["POST", "PUT"]
  | .watch => some ["GET"]
  | .inspect => some ["HEAD", "GET", "OPTIONS"]
  | _ => none

/-- Model of planner.validateUsingClause. -/
def validateUsingClause (verb : Verb) (method : String) : Except String Unit :=
  match allowedMethodsFor verb with
  | none => .ok ()
  | some allowed =>
    if method ∈ allowed then .ok ()
    else
      .error ("verb \x27" ++ verbStr verb ++ "\x27 is incompatible with method \x27" ++
        method ++ "\x27")

/-- Fold one include item into the plan (the IncludeClause case of
planner.applyClause).  Headers, params and cookies are Go string maps, so a
repeated name overwrites the earlier value; a basic item overwrites the
Authorization header with the base64 encoding of user:pass. -/
def applyIncludeItem (plan : ExecutionPlan) (item : IncludeItem) : ExecutionPlan :=
  if item.type = "header" then
    { plan with headers := goMapSet plan.headers item.name item.value }
  else if item.type = "param" then
    { plan with queryParams := goMapSet plan.queryParams item.name item.value }
  else if item.type = "cookie" then
    { plan with cookies := goMapSet plan.cookies item.name item.value }
  else if item.type = "basic" then
    let enc := "Basic " ++ base64Encode item.value
    { plan with headers := goMapSet plan.headers "Authorization" enc }
  else plan

/-- Model of planner.applyClause. -/
def applyClause (clause : Clause) (plan : ExecutionPlan) (verb : Verb) :
    Except String ExecutionPlan :=
  match clause with
  | .using method =>
    match validateUsingClause verb method with
    | .error e => .error e
    | .ok _ => .ok { plan with method := goToUpper method }
  | .headers hs =>
    .ok { plan with headers := hs.foldl (fun m kv => goMapSet m kv.1 kv.2) plan.headers }
  | .params ps =>
    .ok { plan with queryParams := ps.foldl (fun m kv => goMapSet m kv.1 kv.2) plan.queryParams }
  | .withClause value ty isFile isStdin =>
    let body0 := plan.body.getD BodyPlan.empty
    let body :=
      if isFile then
        { body0 with filePath := value, type := if ty = "" then "raw" else ty }
      else if isStdin then
        { body0 with filePath := "-", type := if ty = "" then "raw" else ty }
      else
        { body0 with content := value, type := ty }
    let plan := { plan with body := some body }
    .ok (if plan.method = "GET" then { plan with method := "POST" } else plan)
  | .asClause format =>
    let out := plan.output.getD ⟨"", "", ""⟩
    .ok { plan with output := some { out with format := format } }
  | .toClause dest =>
    let out := plan.output.getD ⟨"", "", ""⟩
    .ok { plan with output := some { out with destination := dest } }
  | .retry count =>
    let r := plan.retry.getD { count := 0, backoffMin := 200000000, backoffMax := 5000000000 }
    .ok { plan with retry := some { r with count := count } }
  | .backoff mn mx =>
    let r := plan.retry.getD { count := 3, backoffMin := 0, backoffMax := 0 }
    .ok { plan with retry := some { r with backoffMin := mn, backoffMax := mx } }
  | .timeout d => .ok { plan with timeout := some d }
  | .proxy url => .ok { plan with proxy := url }
  | .pick path =>
    let out := plan.output.getD ⟨"", "", ""⟩
    .ok { plan with output := some { out with pick := path } }
  | .insecure v => .ok { plan with insecure := v }
  | .via url => .ok { plan with proxy := url }
  | .includeClause items => .ok (items.foldl applyIncludeItem plan)
  | .attach parts boundary =>
    let body0 := plan.body.getD BodyPlan.empty
    let body := { body0 with type := "multipart", attachParts := parts }
    let body := if boundary ≠ "" then { body with boundary := boundary } else body
    .ok { plan with body := some body }
  | .expect checks => .ok { plan with expect := checks }
  | .follow policy => .ok { plan with follow := policy }
  | .under d sz isSize =>
    if isSize then .ok { plan with sizeLimit := some sz }
    else .ok { plan with timeout := some d }
  | .verbose => .ok { plan with verbose := true }
  | .resume => .ok { plan with resume := true }
  | .every _ => .error "unsupported clause type: types.EveryClause"
  | .untilClause _ => .error "unsupported clause type: types.UntilClause"
  | .fieldClause _ _ => .error "unsupported clause type: types.FieldClause"

/-- Fold applyClause over a clause list. -/
def applyClauses (verb : Verb) : List Clause → ExecutionPlan → Except String ExecutionPlan
  | [], plan => .ok plan
  | c :: cs, plan =>
    match applyClause c plan verb with
    | .error e => .error e
    | .ok plan2 => applyClauses verb cs plan2

/-- Model of planner.extractFilenameFromURL. -/
def extractFilenameFromURL (urlStr : String) : String :=
  let u := urlParse urlStr
  let path := u.path
  if path = "" || path = "/" then "download"
  else
    let path := goDropPre path "/"
    let parts := goSplit path '/'
    let raw := parts.getLastD ""
    let filename :=
      match pathUnescape raw with
      | some f => f
      | none =>
        match queryUnescape raw with
        | some f => f
        | none => raw
    let filename := if filename = "" || !goContainsChar filename '.' then "download" else filename
    -- filepath.Base: strip trailing slashes and keep the last path element
    let l := filename.toList.reverse.dropWhile (fun c => c = '/')
    let base := l.takeWhile (fun c => c ≠ '/')
    if filename = "" then "."
    else if base.isEmpty then "/"
    else ⟨base.reverse⟩

/-- Model of planner.validatePlan. -/
def validatePlan (plan : ExecutionPlan) : Except String Unit :=
  if plan.method = "" then .error "method is required"
  else if plan.url = "" then .error "URL is required"
  else .ok ()

/-- Model of planner.Plan.  The file-system query used for the save verb
(os.Stat, planner.isDirectory) is the isDir oracle parameter. -/
def Plan (isDir : String → Bool) (cmd : Command) : Except String ExecutionPlan :=
  let plan := applyVerbDefaults cmd.verb (initPlan cmd.verb cmd.target)
  match applyClauses cmd.verb cmd.clauses plan with
  | .error e => .error e
  | .ok plan =>
    let plan :=
      if cmd.verb = .save then
        match plan.output with
        | none => plan
        | some out =>
          if out.destination = "" then
            let filename := extractFilenameFromURL plan.url
            if filename ≠ "" then
              { plan with output := some { out with destination := filename } }
            else plan
          else if isDir out.destination then
            let filename := extractFilenameFromURL plan.url
            if filename ≠ "" then
              let out2 := { out with destination := out.destination ++ "/" ++ filename }
              { plan with output := some out2 }
            else plan
          else plan
      else plan
    match validatePlan plan with
    | .error e => .error e
    | .ok _ => .ok plan

/-! ## Executor (internal/runtime/executor.go)

Network, file system and compression libraries are modelled as follows: the
server is an oracle from requests to responses; response bodies are a free
datatype over plaintext with gzip and brotli wrappers, so that unwrapping is
exact inverse application; JSON validity and regexp matching (used only by
expect checks) are oracle parameters.  Response headers keep their canonical
MIME names, and lookups match names exactly, as http.Header does after
canonicalization. -/

/-- Response body: plaintext, or a gzip or brotli layer over a body.  A
wrapped body stands for the compressed byte stream; reading it without
unwrapping yields those raw bytes. -/
inductive Body where
  | plain (s : String)
  | gz (b : Body)
  | br (b : Body)
deriving DecidableEq

/-- HTTP response as the executor sees it. -/
structure Response where
  status : Nat
  headers : List (String × String)
  body : Body
deriving DecidableEq

/-- First header value by exact canonical name, empty string when absent
(http.Header.Get). -/
def headerGet (hs : List (String × String)) (name : String) : String :=
  match hs with
  | [] => ""
  | (k, v) :: rest => if k = name then v else headerGet rest name

/-- All header values for a name in order (http.Header.Values). -/
def headerValues (hs : List (String × String)) (name : String) : List String :=
  hs.filterMap (fun kv => if kv.1 = name then some kv.2 else none)

/-- Outgoing HTTP request.  Cookies added by AddCookie are kept as a list of
name-value pairs (they render into the Cookie header on the wire). -/
structure Request where
  method : String
  url : String
  headers : List (String × String)
  cookies : List (String × String)
  body : Option String
deriving DecidableEq

/-- http.Header.Get on a request. -/
def reqHeaderGet (req : Request) (name : String) : String := headerGet req.headers name

/-- http.Header.Set on a request. -/
def reqHeaderSet (req : Request) (name value : String) : Request :=
  { req with headers := goMapSet req.headers name value }

/-- Model of Executor.buildURL: merge plan query parameters into the URL
query and re-encode.  Go ranges over the QueryParams map in unspecified
order; the model iterates the association list in insertion order, which is
observable only through Encode ordering of distinct keys (Encode sorts
keys, and each key holds a single value, so no claim depends on it). -/
def buildURL (plan : ExecutionPlan) : String :=
  let u := urlParse plan.url
  let existing := parseQuery u.rawQuery
  let merged := plan.queryParams.foldl (fun m kv => valuesAdd m kv.1 kv.2) existing
  urlString { u with rawQuery := valuesEncode merged }

/-- Model of Executor.setHeaders: user headers first, then the multipart
Content-Type override (with its note when the user had set one), else the
inferred content type only when none is set.  Returns the request and the
override note, when emitted. -/
def setHeaders (req : Request) (plan : ExecutionPlan) (contentType : String) :
    Request × Option String :=
  let req := plan.headers.foldl (fun r kv => reqHeaderSet r kv.1 kv.2) req
  match plan.body with
  | some body =>
    if body.type = "multipart" && contentType ≠ "" then
      let note :=
        if (goMapGet plan.headers "Content-Type").isSome then
          some "Note: Content-Type overridden for multipart"
        else none
      (reqHeaderSet req "Content-Type" contentType, note)
    else if contentType ≠ "" && reqHeaderGet req "Content-Type" = "" then
      (reqHeaderSet req "Content-Type" contentType, none)
    else (req, none)
  | none =>
    if contentType ≠ "" && reqHeaderGet req "Content-Type" = "" then
      (reqHeaderSet req "Content-Type" contentType, none)
    else (req, none)

/-- Model of Executor.setCookies: add each plan cookie to the request.  Go
ranges over the cookie map in unspecified order; the model fixes the
association-list order. -/
def setCookies (req : Request) (plan : ExecutionPlan) : Request :=
  { req with cookies := req.cookies ++ plan.cookies }

/-! ### Session auto-apply (executor.autoApplySession, package session) -/

/-- Stored per-host session (session.Session).  Cookies are an association
list; Go ranges over the cookie map in unspecified order when applying, and
the model fixes the list order. -/
structure Session where
  host : String
  cookies : List (String × String)
  authorization : String
deriving DecidableEq

/-- Model of session.ExtractHost: the host component of url.Parse. -/
def extractHost (urlStr : String) : String := (urlParse urlStr).host

/-- Model of Executor.autoApplySession.  The session store stands for
session.LoadSession: none covers both a missing session and a load error
(the code treats them alike).  Returns the updated request and the
diagnostic note, when one is emitted. -/
def autoApplySession (store : String → Option Session) (req : Request)
    (plan : ExecutionPlan) : Request × Option String :=
  let hasAuth := reqHeaderGet req "Authorization" ≠ ""
  let hasCookie := plan.cookies.any (fun kv => kv.1 ≠ "")
  if hasAuth || hasCookie then (req, none)
  else
    let host := extractHost plan.url
    match store host with
    | none => (req, none)
    | some sess =>
      let req := if sess.authorization ≠ "" then reqHeaderSet req "Authorization" sess.authorization else req
      let req := { req with cookies := req.cookies ++ sess.cookies }
      (req, some ("Using session for " ++ host))

/-! ### Decompression (executor.readAndDecompress) -/

/-- Unwrap one Content-Encoding token: gzip and br peel the matching layer
(an encoding mismatch is the read error the gzip or brotli reader reports),
any other token passes the data through unchanged.  The Bool tracks the
decompressed flag. -/
def unwrapOne (enc : String) (b : Body) (flag : Bool) : Except String (Body × Bool) :=
  let e := goToLower (goTrim enc)
  if e = "gzip" then
    match b with
    | .gz inner => .ok (inner, true)
    | _ => .error "failed to create gzip reader"
  else if e = "br" then
    match b with
    | .br inner => .ok (inner, true)
    | _ => .error "brotli: decode error"
  else .ok (b, flag)

/-- Fold unwrapOne over an encoding-token list. -/
def unwrapAll : List String → Body → Bool → Except String (Body × Bool)
  | [], b, flag => .ok (b, flag)
  | e :: rest, b, flag =>
    match unwrapOne e b flag with
    | .error err => .error err
    | .ok (b2, flag2) => unwrapAll rest b2 flag2

/-- Model of Executor.readAndDecompress: split Content-Encoding on commas
and unwrap the encodings in reverse order of declaration; returns the bytes
read and whether any layer was decompressed. -/
def readAndDecompress (resp : Response) : Except String (Body × Bool) :=
  let encoding := headerGet resp.headers "Content-Encoding"
  if encoding = "" then .ok (resp.body, false)
  else unwrapAll (goSplit encoding ',').reverse resp.body false

/-! ### Expect checks (executor.runExpectCheck) -/

/-- Model of Executor.runExpectCheck.  jsonValid stands for a successful
json.Unmarshal of the body (the jsonpath check only validates JSON, as the
source notes); regexMatch stands for regexp.MatchString, none meaning the
pattern failed to compile. -/
def runExpectCheck (jsonValid : String → Bool) (regexMatch : String → String → Option Bool)
    (resp : Response) (body : String) (check : ExpectCheck) : Except String Unit :=
  if check.type = "status" then
    let actual := toString resp.status
    if actual ≠ check.value then
      .error ("expected status " ++ check.value ++ ", got " ++ actual)
    else .ok ()
  else if check.type = "header" then
    let actual := headerGet resp.headers check.name
    if actual ≠ check.value then
      .error ("expected header " ++ check.name ++ "=" ++ check.value ++ ", got " ++ actual)
    else .ok ()
  else if check.type = "contains" then
    if !goContains body check.value then
      .error ("expected body to contain " ++ dq.toString ++ check.value ++ dq.toString)
    else .ok ()
  else if check.type = "jsonpath" then
    if !jsonValid body then .error "failed to parse JSON" else .ok ()
  else if check.type = "matches" then
    match regexMatch check.regex body with
    | none => .error "invalid regex"
    | some true => .ok ()
    | some false =>
      .error ("body does not match regex " ++ dq.toString ++ check.regex ++ dq.toString)
  else .error ("unknown expect check type: " ++ check.type)

/-- Model of Executor.runExpectChecks: run the checks in order and stop at
the first failure. -/
def runExpectChecks (jsonValid : String → Bool) (regexMatch : String → String → Option Bool)
    (resp : Response) (body : String) : List ExpectCheck → Except String Unit
  | [] => .ok ()
  | c :: cs =>
    match runExpectCheck jsonValid regexMatch resp body c with
    | .error e => .error e
    | .ok _ => runExpectChecks jsonValid regexMatch resp body cs

/-! ### Redirect state machine (executor.executeWithRedirects and the
cookie-capturing variant) -/

/-- The write-verb test of executeWithRedirects, a function of the plan
method. -/
def isWriteVerbMethod (m : String) : Bool :=
  m = "POST" || m = "PUT" || m = "PATCH" || m = "DELETE"

/-- The shouldFollow policy computed at the top of executeWithRedirects:
follow with follow=smart, or when the verb is read, save or authenticate;
all other verbs do not follow. -/
def shouldFollow (plan : ExecutionPlan) : Bool :=
  if plan.follow = "smart" then true
  else if plan.verb = .read || plan.verb = .save || plan.verb = .authenticate then true
  else false

/-- Statuses the Go HTTP client treats as actionable redirects. -/
def isRedirectStatus (s : Nat) : Bool :=
  s = 301 || s = 302 || s = 303 || s = 307 || s = 308

/-- The next request the Go client builds for a followed redirect: 301, 302
and 303 switch methods other than GET and HEAD to GET and drop the body; 307
and 308 preserve method and body.  The Location value is taken as the next
URL (resolution against the base is identity for the absolute locations
modelled here). -/
def redirectNewRequest (req : Request) (status : Nat) (loc : String) : Request :=
  if status = 301 || status = 302 || status = 303 then
    let m := if req.method = "GET" || req.method = "HEAD" then req.method else "GET"
    { req with method := m, url := loc, body := none }
  else { req with url := loc }

/-- Trace line recorded by the CheckRedirect closure of
executeWithRedirects: arrow, status, then the method and URL of the next
request. -/
def traceLine (status : Nat) (req : Request) : String :=
  "→ " ++ toString status ++ " " ++ req.method ++ " " ++ req.url

/-- The Go client's default redirect policy (a nil CheckRedirect): follow
every Location-bearing 301, 302, 303, 307 or 308 with the standard method
and body rules, stopping with an error when the request chain would exceed
ten requests (via counts the requests made so far, as the via slice of
defaultCheckRedirect does).  Bodies in this program are strings.Reader or
bytes.Buffer values, for which GetBody is always set, so 307/308 hops are
always replayable.  No trace is recorded.  The fuel only bounds the
recursion; eleven is enough because via errors at ten. -/
def defaultFollowLoop (server : Request → Response) :
    Nat → Request → Nat → Except String Response
  | 0, _, _ => .error "stopped after 10 redirects"
  | fuel + 1, req, via =>
    let resp := server req
    let loc := headerGet resp.headers "Location"
    if isRedirectStatus resp.status && loc ≠ "" then
      if via ≥ 10 then .error "stopped after 10 redirects"
      else defaultFollowLoop server fuel (redirectNewRequest req resp.status loc) (via + 1)
    else .ok resp

/-- Redirect-following loop of executeWithRedirects for the shouldFollow
branch: the Go client sends, and before each hop runs the CheckRedirect
closure, which errors past five redirects and, under follow=smart with a
write-verb plan, rejects any non-307/308 status.  The fuel only bounds the
recursion; six is enough because the closure errors when the redirect
counter reaches five. -/
def followLoop (plan : ExecutionPlan) (server : Request → Response) :
    Nat → Request → Nat → List String → Except String (Response × List String)
  | 0, _, _, _ => .error "stopped after 5 redirects"
  | fuel + 1, req, redirects, trace =>
    let resp := server req
    let loc := headerGet resp.headers "Location"
    if isRedirectStatus resp.status && loc ≠ "" then
      let newReq := redirectNewRequest req resp.status loc
      if redirects ≥ 5 then .error "stopped after 5 redirects"
      else if plan.follow = "smart" && isWriteVerbMethod plan.method &&
          !(resp.status = 307 || resp.status = 308) then
        .error ("write verb: not following " ++ toString resp.status ++
          " redirect (use 307/308)")
      else
        followLoop plan server fuel newReq (redirects + 1)
          (trace ++ [traceLine resp.status newReq])
    else .ok (resp, trace)

/-- Model of Executor.executeWithRedirects.  When shouldFollow is false the
code still calls e.client.Do, whose CheckRedirect is nil, so the Go client
follows redirects under its default ten-request policy; the advisory trace
line is appended only when the final response of that exchange is still a
301, 302 or 303 (which for this client means a Location-less one) and the
plan method is a write method.  When shouldFollow is true the copy of the
client with the counting CheckRedirect closure runs instead. -/
def executeWithRedirects (plan : ExecutionPlan) (server : Request → Response)
    (req : Request) : Except String (Response × List String) :=
  let isWrite := isWriteVerbMethod plan.method
  if !shouldFollow plan then
    match defaultFollowLoop server 11 req 1 with
    | .error e => .error e
    | .ok resp =>
      let trace :=
        if isWrite && (resp.status = 301 || resp.status = 302 || resp.status = 303) then
          ["Advisory: " ++ toString resp.status ++ " redirect for write verb, not following"]
        else []
      .ok (resp, trace)
  else followLoop plan server 6 req 0 []

/-- Model of Executor.executeWithRedirectsCapturingCookies, the authenticate
variant.  Its client copy sets CheckRedirect to nil, which in Go re-enables
the default redirect policy (despite the comment in the source), so every
client.Do in the hand-rolled loop follows a whole Location-bearing redirect
chain by itself — preserving 307/308 methods and bodies and producing no
trace — and returns its final response.  The loop therefore only sees
Set-Cookie headers of those final responses (intermediate cookies are
absorbed by the cookie jar, modelled by the jar parameter, appended as
name=value strings on the non-3xx return, as the source does), and only
reissues a request itself — bodiless, switched to GET for 301/302/303,
with a trace line naming the pre-hop method — when a final response is a
non-redirect 3xx (300, 304, …) that still carries a Location.  At most five
client.Do calls are made before the stopped-after-5-redirects error. -/
def executeCapturing (server : Request → Response) (jar : List (String × String)) :
    Nat → Request → List String → List String →
    Except String (Response × List String × List String)
  | 0, _, _, _ => .error "stopped after 5 redirects"
  | fuel + 1, req, trace, cookies =>
    match defaultFollowLoop server 11 req 1 with
    | .error e => .error e
    | .ok resp =>
      let cookies := cookies ++ headerValues resp.headers "Set-Cookie"
      if 300 ≤ resp.status && resp.status < 400 then
        let loc := headerGet resp.headers "Location"
        if loc = "" then .ok (resp, trace, cookies)
        else
          let method :=
            if resp.status = 301 || resp.status = 302 || resp.status = 303 then "GET"
            else req.method
          let newReq : Request :=
            { method := method, url := loc, headers := req.headers, cookies := [], body := none }
          executeCapturing server jar fuel newReq
            (trace ++ ["→ " ++ toString resp.status ++ " " ++ req.method ++ " " ++ loc]) cookies
      else
        .ok (resp, trace, cookies ++ jar.map (fun kv => kv.1 ++ "=" ++ kv.2))

/-! ### Exit-code mapping (Execute tail and cmd/req/main.go) -/

/-- Exit code computed from the final response once the exchange succeeded
(Execute lines running the expect checks, and the non-2xx fallback), with 0
for the success path. -/
def exchangeExitCode (jsonValid : String → Bool) (regexMatch : String → String → Option Bool)
    (resp : Response) (body : String) (expect : List ExpectCheck) : Nat :=
  if expect.length > 0 then
    match runExpectChecks jsonValid regexMatch resp body expect with
    | .ok _ => 0
    | .error _ => 3
  else if resp.status < 200 || resp.status ≥ 300 then 4
  else 0

/-- Outcome of the network exchange: a transport-level failure
(connection, TLS, timeout, or too many redirects), or a final response
together with the body bytes the executor read. -/
inductive NetOutcome where
  | failure (msg : String)
  | response (resp : Response) (body : String)

/-- Composition of Parse and Plan as run by cmd/req main, with the parse
error carried as its message string. -/
def parseAndPlan (isDir : String → Bool) (input : String) : Except String ExecutionPlan :=
  match Parse input with
  | .error e => .error e.message
  | .ok cmd => Plan isDir cmd

/-- Model of the cmd/req main exit path for an ordinary (non-session,
non-dry-run) invocation: parse errors and plan errors exit 5, transport
failures exit 4, and a completed exchange exits via exchangeExitCode.
Session subcommands take a separate path whose exit status is the
sessionExit parameter; output I/O is assumed to succeed. -/
def mainExitCode (jsonValid : String → Bool) (regexMatch : String → String → Option Bool)
    (isDir : String → Bool) (sessionExit : Nat) (input : String) (net : NetOutcome) : Nat :=
  match Parse input with
  | .error _ => 5
  | .ok cmd =>
    if cmd.verb = .session then sessionExit
    else
      match Plan isDir cmd with
      | .error _ => 5
      | .ok plan =>
        match net with
        | .failure _ => 4
        | .response resp body => exchangeExitCode jsonValid regexMatch resp body plan.expect

/-! ## Theorems about the claims -/

/-- Command line of the C7 tokenization round-trip scenario. -/
def c7cmd : String :=
  "read https://example.com include=\x27header: Accept: application/json, text/plain; q=0.9\x27"

/-- C7: tokenizing a command whose clause value is quoted and contains
embedded semicolons, commas, colons and equals signs keeps that value one
part (here the whole include clause is a single whitespace-split part, whose
value becomes a single value token), and parsing reconstructs the original
unquoted content exactly: one IncludeClause with one header item named
Accept whose value is application/json, text/plain; q=0.9. -/
theorem c7_tokenization_round_trip :
    tokenizeRespectingQuotes c7cmd =
      ["read", "https://example.com",
        "include=\x27header: Accept: application/json, text/plain; q=0.9\x27"] ∧
    Parse c7cmd = .ok
      { verb := .read, target := "https://example.com",
        clauses := [.includeClause
          [{ type := "header", name := "Accept",
             value := "application/json, text/plain; q=0.9" }]],
        sessionSubcommand := "" } := by
  constructor
  · decide
  · decide

/-- Command line of the C6 repeated-parameter scenario. -/
def c6cmd : String := "read https://example.com include=\x27param: k=v1; param: k=v2\x27"

/-- C6: the parser does deliver both param items in order, but the planner
stores query parameters in a string-keyed map, so the second item for the
key k overwrites the first: the plan ends with k bound to v2 only, and URL
assembly produces k=v2 — not k=v1 followed by k=v2 as the appending
described by the specification (and by the code comments) would give. -/
theorem c6_param_overwrite :
    Parse c6cmd = .ok
      { verb := .read, target := "https://example.com",
        clauses := [.includeClause
          [{ type := "param", name := "k", value := "v1" },
           { type := "param", name := "k", value := "v2" }]],
        sessionSubcommand := "" } ∧
    (parseAndPlan (fun _ => false) c6cmd).map (fun p => (p.queryParams, buildURL p)) =
      .ok ([("k", "v2")], "https://example.com?k=v2") := by
  refine ⟨by decide, by decide⟩

/-- C9: a using= method outside the verb's allowed set is rejected at plan
time with an error naming both verb and method; read allows exactly GET,
HEAD and OPTIONS, send allows exactly POST, PUT and PATCH; concretely,
read with using=POST fails planning and send with using=PUT and a JSON body
plans with method PUT. -/
theorem c9_method_verb_validation :
    (∀ m, validateUsingClause .read m = .ok () ↔ m ∈ ["GET", "HEAD", "OPTIONS"]) ∧
    (∀ m, validateUsingClause .send m = .ok () ↔ m ∈ ["POST", "PUT", "PATCH"]) ∧
    (∀ m, m ∉ ["GET", "HEAD", "OPTIONS"] →
      validateUsingClause .read m =
        .error ("verb \x27" ++ verbStr .read ++ "\x27 is incompatible with method \x27" ++
          m ++ "\x27")) ∧
    parseAndPlan (fun _ => false) "read https://example.com using=POST" =
      .error "verb \x27read\x27 is incompatible with method \x27POST\x27" ∧
    (parseAndPlan (fun _ => false) "send https://example.com using=PUT with=\x27\x7b\x7d\x27").map
        (fun p => p.method) = .ok "PUT" := by
  refine ⟨?_, ?_, ?_, by decide, by decide⟩
  · intro m
    simp only [validateUsingClause, allowedMethodsFor]
    split <;> simp_all
  · intro m
    simp only [validateUsingClause, allowedMethodsFor]
    split <;> simp_all
  · intro m hm
    simp only [validateUsingClause, allowedMethodsFor]
    split
    · exact absurd (by assumption) hm
    · rfl

/-- Witness for c9_method_verb_validation at the concrete method DELETE. -/
theorem c9_method_verb_validation_witness :
    validateUsingClause .read "DELETE" =
      .error ("verb \x27" ++ verbStr .read ++ "\x27 is incompatible with method \x27" ++
        "DELETE" ++ "\x27") :=
  c9_method_verb_validation.2.2.1 "DELETE" (by decide)

/-- C10: the retry clause parser consumes its count token but never converts
it, always yielding the constant count three; the planner copies the parsed
count, so the plan retry count is three regardless of the number written.
Shown in general at the parser and planner levels, and end to end for
retry=7 and retry=0 (the two token classifications a number can get). -/
theorem c10_retry_count_constant :
    (∀ tks pos, pos < tks.length → parseRetryClause tks pos = .ok (.retry 3, pos + 1)) ∧
    (∀ plan v cnt,
      (applyClause (.retry cnt) plan v).map (fun p => p.retry.map RetryPlan.count) =
        .ok (some cnt)) ∧
    (parseAndPlan (fun _ => false) "read https://example.com retry=7").map
      (fun p => p.retry.map RetryPlan.count) = .ok (some 3) ∧
    Parse "read https://example.com retry=0" = .ok
      { verb := .read, target := "https://example.com", clauses := [.retry 3],
        sessionSubcommand := "" } := by
  refine ⟨?_, ?_, by decide, by decide⟩
  · intro tks pos h
    simp [parseRetryClause, Nat.not_le.mpr h]
  · intro plan v cnt
    cases hr : plan.retry <;> simp [applyClause, hr, Except.map]

/-- Witness for c10_retry_count_constant at a concrete token stream. -/
theorem c10_retry_count_constant_witness :
    parseRetryClause [eofTok] 0 = .ok (.retry 3, 1) :=
  c10_retry_count_constant.1 [eofTok] 0 (by decide)

/-- Plain 404 response used in the C1 scenarios. -/
def resp404 : Response := { status := 404, headers := [], body := .plain "" }

/-- Plain 200 response used in the C1 scenarios. -/
def resp200 : Response := { status := 200, headers := [], body := .plain "" }

/-- C1: the process exit code is a total function of the outcome category —
5 when parsing or planning fails (in particular an unknown clause key), 4
for transport failures and for a non-2xx final status without expect
clauses, 3 when an expect check fails after a successful exchange, 0
otherwise; concretely, a 404 with no expect exits 4, the same response with
expect=status:404 exits 0, a 200 with expect=status:201 exits 3, and an
unknown clause key exits 5 (with the close-match suggestion attached to the
parse error). -/
theorem c1_exit_code_contract :
    (∀ jv rm isDir se,
      mainExitCode jv rm isDir se "read https://example.com/x" (.response resp404 "") = 4) ∧
    (∀ jv rm isDir se,
      mainExitCode jv rm isDir se "read https://example.com/x expect=status:404"
        (.response resp404 "") = 0) ∧
    (∀ jv rm isDir se,
      mainExitCode jv rm isDir se "read https://example.com/x expect=status:201"
        (.response resp200 "") = 3) ∧
    (∀ jv rm isDir se net,
      mainExitCode jv rm isDir se "read https://example.com/x exxpect=status:404" net = 5) ∧
    (Parse "read https://example.com/x exxpect=status:404" =
      .error { position := 2, token := "exxpect", message := "unknown clause",
               suggest := "expect" }) ∧
    (∀ jv rm resp body checks, checks ≠ [] →
      runExpectChecks jv rm resp body checks = .ok () →
      exchangeExitCode jv rm resp body checks = 0) ∧
    (∀ jv rm resp body checks msg, checks ≠ [] →
      runExpectChecks jv rm resp body checks = .error msg →
      exchangeExitCode jv rm resp body checks = 3) ∧
    (∀ jv rm resp body, resp.status < 200 ∨ 300 ≤ resp.status →
      exchangeExitCode jv rm resp body [] = 4) ∧
    (∀ jv rm resp body, 200 ≤ resp.status → resp.status < 300 →
      exchangeExitCode jv rm resp body [] = 0) ∧
    (∀ jv rm isDir se input e net, Parse input = .error e →
      mainExitCode jv rm isDir se input net = 5) ∧
    (∀ jv rm isDir se input cmd e net, Parse input = .ok cmd → cmd.verb ≠ .session →
      Plan isDir cmd = .error e → mainExitCode jv rm isDir se input net = 5) ∧
    (∀ jv rm isDir se input cmd plan msg, Parse input = .ok cmd → cmd.verb ≠ .session →
      Plan isDir cmd = .ok plan →
      mainExitCode jv rm isDir se input (.failure msg) = 4) := by
  have hparse : Parse "read https://example.com/x exxpect=status:404" =
      .error { position := 2, token := "exxpect", message := "unknown clause",
               suggest := "expect" } := by decide
  refine ⟨fun jv rm isDir se => rfl, fun jv rm isDir se => rfl, fun jv rm isDir se => rfl,
    fun jv rm isDir se net => by simp [mainExitCode, hparse], hparse, ?_, ?_, ?_, ?_, ?_, ?_, ?_⟩
  · intro jv rm resp body checks hne hok
    have hl : checks.length > 0 := by
      cases checks with
      | nil => exact absurd rfl hne
      | cons c cs => simp
    simp [exchangeExitCode, hl, hok]
  · intro jv rm resp body checks msg hne herr
    have hl : checks.length > 0 := by
      cases checks with
      | nil => exact absurd rfl hne
      | cons c cs => simp
    simp [exchangeExitCode, hl, herr]
  · intro jv rm resp body h
    have hb : (decide (resp.status < 200) || decide (resp.status ≥ 300)) = true := by
      rcases h with h1 | h1 <;> simp [h1, ge_iff_le]
    simp [exchangeExitCode, hb]
  · intro jv rm resp body h1 h2
    simp [exchangeExitCode, ge_iff_le, Nat.not_lt.mpr h1, Nat.not_le.mpr h2]
  · intro jv rm isDir se input e net h
    simp [mainExitCode, h]
  · intro jv rm isDir se input cmd e net hp hv hplan
    simp [mainExitCode, hp, hv, hplan]
  · intro jv rm isDir se input cmd plan msg hp hv hplan
    simp [mainExitCode, hp, hv, hplan]

/-- Witness for c1_exit_code_contract: the hypothesis-bearing general
clauses instantiated at a concrete passing check list, at a failing check
list, and at concrete non-2xx and 2xx statuses. -/
theorem c1_exit_code_contract_witness :
    exchangeExitCode (fun _ => true) (fun _ _ => some true) resp200 ""
      [{ type := "status", name := "", value := "200", path := "", regex := "" }] = 0 ∧
    exchangeExitCode (fun _ => true) (fun _ _ => some true) resp200 ""
      [{ type := "status", name := "", value := "201", path := "", regex := "" }] = 3 ∧
    exchangeExitCode (fun _ => true) (fun _ _ => some true) resp404 "" [] = 4 ∧
    exchangeExitCode (fun _ => true) (fun _ _ => some true) resp200 "" [] = 0 := by
  refine ⟨?_, ?_, ?_, ?_⟩
  · exact c1_exit_code_contract.2.2.2.2.2.1 _ _ _ _ _ (by decide) (by decide)
  · exact c1_exit_code_contract.2.2.2.2.2.2.1 _ _ _ _ _ "expected status 201, got 200"
      (by decide) (by decide)
  · exact c1_exit_code_contract.2.2.2.2.2.2.2.1 _ _ _ _ (by decide)
  · exact c1_exit_code_contract.2.2.2.2.2.2.2.2.1 _ _ _ _ (by decide) (by decide)

/-- Trimming absorbs one leading space. -/
theorem goTrimList_cons_space (l : List Char) : goTrimList (' ' :: l) = goTrimList l := by
  simp [goTrimList, List.dropWhile_cons, goIsSpace]

/-- String form of goTrimList_cons_space. -/
theorem goTrim_space_cons (s : String) : goTrim ⟨' ' :: s.toList⟩ = goTrim s := by
  simp [goTrim, String.toList, goTrimList_cons_space]

/-- Looking up the key just set in a Go map model returns the new value. -/
theorem goMapGet_set (m : List (String × String)) (k v : String) :
    goMapGet (goMapSet m k v) k = some v := by
  induction m with
  | nil => simp [goMapSet, goMapGet]
  | cons kv rest ih =>
    obtain ⟨k1, v1⟩ := kv
    by_cases h : k1 = k <;> simp [goMapSet, goMapGet, h, ih]

/-- C8: an include item basic: user:pass with a colon in the credentials
parses to a basic item carrying the credentials verbatim; folding it into
any plan sets the Authorization header to Basic followed by the standard
base64 of the credentials, overriding any previous value; a credentials
string without a colon is a parse error naming the offending fragment; and
the user:pass example yields exactly Basic dXNlcjpwYXNz end to end. -/
theorem c8_basic_auth_encoding :
    (∀ creds : String, goTrim creds = creds → unquoteString creds = creds →
      goContainsChar creds ':' = true →
      parseIncludeItem ("basic: " ++ creds) =
        .ok { type := "basic", name := "", value := creds }) ∧
    (∀ creds : String, goTrim creds = creds → unquoteString creds = creds →
      goContainsChar creds ':' = false →
      parseIncludeItem ("basic: " ++ creds) =
        .error ("basic item must be in format username:password: " ++ ("basic: " ++ creds))) ∧
    (∀ plan creds, goMapGet (applyIncludeItem plan
        { type := "basic", name := "", value := creds }).headers "Authorization" =
      some ("Basic " ++ base64Encode creds)) ∧
    (parseAndPlan (fun _ => false) "read https://example.com include=\x27basic: user:pass\x27").map
      (fun p => p.headers) = .ok [("Authorization", "Basic dXNlcjpwYXNz")] := by
  have hshape : ∀ creds : String,
      parseIncludeItem ("basic: " ++ creds) =
        (let c2 := unquoteString (goTrim (goTrim ⟨' ' :: creds.toList⟩))
         if goContainsChar c2 ':' then .ok { type := "basic", name := "", value := c2 }
         else .error ("basic item must be in format username:password: " ++
           ("basic: " ++ creds))) := by
    intro creds
    rfl
  refine ⟨?_, ?_, ?_, by decide⟩
  · intro creds h1 h2 h3
    rw [hshape creds]
    simp only [goTrim_space_cons, h1, h2, h3]
    simp
  · intro creds h1 h2 h3
    rw [hshape creds]
    simp only [goTrim_space_cons, h1, h2, h3]
    simp
  · intro plan creds
    exact goMapGet_set plan.headers "Authorization" ("Basic " ++ base64Encode creds)

/-- Witness for c8_basic_auth_encoding at the concrete credentials
user:pass and at a colon-free fragment. -/
theorem c8_basic_auth_encoding_witness :
    parseIncludeItem ("basic: " ++ "user:pass") =
      .ok { type := "basic", name := "", value := "user:pass" } ∧
    parseIncludeItem ("basic: " ++ "nocolon") =
      .error ("basic item must be in format username:password: " ++ ("basic: " ++ "nocolon")) :=
  ⟨c8_basic_auth_encoding.1 "user:pass" (by decide) (by decide) (by decide),
   c8_basic_auth_encoding.2.1 "nocolon" (by decide) (by decide) (by decide)⟩

/-- Command of the C2 counterexample: an include= clause that explicitly
sets the Authorization header to the empty value. -/
def c2cmd : String := "read https://api.example.com/x include=\x27header: Authorization:\x27"

/-- Stored session for the C2 scenarios. -/
def c2store : String → Option Session := fun h =>
  if h = "api.example.com" then
    some { host := "api.example.com", cookies := [("sid", "stored-cookie")],
           authorization := "Bearer stored" }
  else none

/-- The plan the pipeline produces for c2cmd (the counterexample theorem
proves this literal is exactly what parsing and planning yield). -/
def c2plan : ExecutionPlan :=
  { verb := .read, method := "GET", url := "https://api.example.com/x",
    headers := [("Authorization", "")], queryParams := [], cookies := [], body := none,
    output := some ⟨"auto", "", ""⟩, retry := none, timeout := none, sizeLimit := none,
    proxy := "", insecure := false, verbose := false, resume := false, follow := "",
    expect := [] }

/-- The outgoing request Execute builds for c2plan before session
auto-apply: headers applied, no body, plan cookies added. -/
def c2req : Request :=
  setCookies
    (setHeaders { method := c2plan.method, url := buildURL c2plan, headers := [],
                  cookies := [], body := none } c2plan "").1
    c2plan

/-- C2 counterexample: the command explicitly sets an Authorization header
(with an empty value) through include=, yet the guard in autoApplySession
only tests Header.Get for a non-empty string, so the stored session for the
host is still consulted: the Using session note is emitted, the stored
bearer value overwrites the explicit header, and the stored cookie is added
to the request — refuting the claim that explicit include= Authorization
data always suppresses session auto-apply. -/
theorem c2_session_precedence_counterexample :
    parseAndPlan (fun _ => false) c2cmd = .ok c2plan ∧
    goMapGet c2plan.headers "Authorization" = some "" ∧
    (autoApplySession c2store c2req c2plan).2 = some "Using session for api.example.com" ∧
    reqHeaderGet (autoApplySession c2store c2req c2plan).1 "Authorization" = "Bearer stored" ∧
    (autoApplySession c2store c2req c2plan).1.cookies = [("sid", "stored-cookie")] := by
  refine ⟨by decide, by decide, by decide, by decide, by decide⟩

/-- C2 as amended: session auto-apply is skipped exactly when the request
carries a non-empty Authorization header value or the plan carries an
explicit cookie with a non-empty name; in that case the stored session is
not consulted, none of its values enter the request, the Using session note
is not emitted, and the outgoing request is identical for any two session
stores.  (The counterexample shows that an explicitly set but empty
Authorization value, or a cookie with an empty name, does not count.) -/
theorem c2_session_precedence_amended :
    ∀ (store1 store2 : String → Option Session) (req : Request) (plan : ExecutionPlan),
      (reqHeaderGet req "Authorization" ≠ "" ∨
        plan.cookies.any (fun kv => kv.1 ≠ "") = true) →
      autoApplySession store1 req plan = (req, none) ∧
      autoApplySession store1 req plan = autoApplySession store2 req plan := by
  intro store1 store2 req plan h
  have hcond : (decide (reqHeaderGet req "Authorization" ≠ "") ||
      plan.cookies.any (fun kv => kv.1 ≠ "")) = true := by
    rcases h with h1 | h1
    · rw [decide_eq_true h1, Bool.true_or]
    · rw [h1, Bool.or_true]
  have happly : ∀ store : String → Option Session,
      autoApplySession store req plan = (req, none) := by
    intro store
    simp only [autoApplySession, hcond]
    try rfl
  exact ⟨happly store1, by rw [happly store1, happly store2]⟩

/-- Case analysis of a successful single-encoding unwrap: a gzip token
peels a gzip layer setting the flag, a br token peels a brotli layer
setting the flag, and any other token passes body and flag through. -/
theorem unwrapOne_ok_cases (e : String) (b b3 : Body) (flag f3 : Bool)
    (h : unwrapOne e b flag = .ok (b3, f3)) :
    (goToLower (goTrim e) = "gzip" ∧ b = .gz b3 ∧ f3 = true) ∨
    (goToLower (goTrim e) = "br" ∧ b = .br b3 ∧ f3 = true) ∨
    (goToLower (goTrim e) ≠ "gzip" ∧ goToLower (goTrim e) ≠ "br" ∧ b3 = b ∧ f3 = flag) := by
  by_cases hg : goToLower (goTrim e) = "gzip"
  · cases b <;> simp_all [unwrapOne]
  · by_cases hb : goToLower (goTrim e) = "br"
    · cases b <;> simp_all [unwrapOne]
    · simp_all [unwrapOne]

/-- The decompressed flag after a successful unwrap chain is set exactly
when the starting flag was set or some token names gzip or br. -/
theorem unwrapAll_flag (l : List String) : ∀ (b b2 : Body) (flag flag2 : Bool),
    unwrapAll l b flag = .ok (b2, flag2) →
    (flag2 = true ↔ (flag = true ∨
      ∃ e ∈ l, goToLower (goTrim e) = "gzip" ∨ goToLower (goTrim e) = "br")) := by
  induction l with
  | nil =>
    intro b b2 flag flag2 h
    simp only [unwrapAll] at h
    have h2 : flag = flag2 := congrArg Prod.snd (Except.ok.inj h)
    simp [h2]
  | cons e rest ih =>
    intro b b2 flag flag2 h
    rw [show unwrapAll (e :: rest) b flag =
        (match unwrapOne e b flag with
         | .error err => .error err
         | .ok (b4, f4) => unwrapAll rest b4 f4) from rfl] at h
    cases hu : unwrapOne e b flag with
    | error err => rw [hu] at h; exact absurd h (by simp)
    | ok p =>
      obtain ⟨b3, f3⟩ := p
      rw [hu] at h
      have ihflag := ih b3 b2 f3 flag2 h
      rcases unwrapOne_ok_cases e b b3 flag f3 hu with ⟨hg, _, hf⟩ | ⟨hbr, _, hf⟩ |
        ⟨hg, hbr, _, hf⟩
      · subst hf
        have hset : flag2 = true := ihflag.mpr (Or.inl rfl)
        rw [hset]
        simp only [true_iff]
        exact Or.inr ⟨e, List.mem_cons_self e rest, Or.inl hg⟩
      · subst hf
        have hset : flag2 = true := ihflag.mpr (Or.inl rfl)
        rw [hset]
        simp only [true_iff]
        exact Or.inr ⟨e, List.mem_cons_self e rest, Or.inr hbr⟩
      · subst hf
        rw [ihflag]
        constructor
        · rintro (hf | ⟨x, hx, hpx⟩)
          · exact Or.inl hf
          · exact Or.inr ⟨x, List.mem_cons_of_mem e hx, hpx⟩
        · rintro (hf | ⟨x, hx, hpx⟩)
          · exact Or.inl hf
          · rcases List.mem_cons.mp hx with heq | hx2
            · subst heq
              rcases hpx with hpx | hpx
              · exact absurd hpx hg
              · exact absurd hpx hbr
            · exact Or.inr ⟨x, hx2, hpx⟩

/-- A chain of tokens naming neither gzip nor br passes the body through
with the flag still clear. -/
theorem unwrapAll_unknown (l : List String) (b : Body)
    (h : ∀ e ∈ l, goToLower (goTrim e) ≠ "gzip" ∧ goToLower (goTrim e) ≠ "br") :
    unwrapAll l b false = .ok (b, false) := by
  induction l with
  | nil => rfl
  | cons e rest ih =>
    have he := h e (List.mem_cons_self e rest)
    rw [show unwrapAll (e :: rest) b false =
        (match unwrapOne e b false with
         | .error err => .error err
         | .ok (b4, f4) => unwrapAll rest b4 f4) from rfl]
    rw [show unwrapOne e b false = .ok (b, false) from by simp [unwrapOne, he.1, he.2]]
    exact ih (fun x hx => h x (List.mem_cons_of_mem e hx))

/-- C5: decompression splits Content-Encoding on commas and unwraps in
reverse declaration order, so a response declaring br, gzip (brotli applied
first, gzip last, the order the header declares) decompresses back to the
original plaintext; tokens naming neither gzip nor br pass the body through
unchanged; and on success the decompressed flag — which is exactly what
triggers the Decompressed response note in Execute — is set iff some
comma-separated token names gzip or br. -/
theorem c5_decompression_layers :
    (∀ st s, readAndDecompress
        { status := st, headers := [("Content-Encoding", "br, gzip")],
          body := .gz (.br (.plain s)) } = .ok (.plain s, true)) ∧
    (∀ resp : Response,
      (∀ e ∈ goSplit (headerGet resp.headers "Content-Encoding") ',',
        goToLower (goTrim e) ≠ "gzip" ∧ goToLower (goTrim e) ≠ "br") →
      readAndDecompress resp = .ok (resp.body, false)) ∧
    (∀ (resp : Response) (b2 : Body) (flag : Bool),
      readAndDecompress resp = .ok (b2, flag) →
      (flag = true ↔ ∃ e ∈ goSplit (headerGet resp.headers "Content-Encoding") ',',
        goToLower (goTrim e) = "gzip" ∨ goToLower (goTrim e) = "br")) := by
  refine ⟨fun st s => rfl, ?_, ?_⟩
  · intro resp h
    rw [readAndDecompress]
    by_cases he : headerGet resp.headers "Content-Encoding" = ""
    · rw [if_pos he]
    · rw [if_neg he]
      exact unwrapAll_unknown _ _ (fun e hme => h e (List.mem_reverse.mp hme))
  · intro resp b2 flag h
    rw [readAndDecompress] at h
    by_cases he : headerGet resp.headers "Content-Encoding" = ""
    · rw [if_pos he] at h
      have hf : flag = false := (congrArg Prod.snd (Except.ok.inj h)).symm
      subst hf
      rw [he]
      decide
    · rw [if_neg he] at h
      have := unwrapAll_flag _ _ _ _ _ h
      rw [this]
      constructor
      · rintro (hf | ⟨x, hx, hpx⟩)
        · exact absurd hf (by decide)
        · exact ⟨x, List.mem_reverse.mp hx, hpx⟩
      · rintro ⟨x, hx, hpx⟩
        exact Or.inr ⟨x, List.mem_reverse.mpr hx, hpx⟩

/-- Response with an unknown content encoding, used by the C5 witness. -/
def c5resp : Response :=
  { status := 200, headers := [("Content-Encoding", "zstd")], body := .plain "hello" }

/-- Witness for c5_decompression_layers: a zstd-encoded response (an
encoding the executor does not know) passes through unchanged with the flag
clear, and its flag correctly reports that no layer was unwrapped. -/
theorem c5_decompression_layers_witness :
    readAndDecompress c5resp = .ok (.plain "hello", false) ∧
    (false = true ↔ ∃ e ∈ goSplit "zstd" ',',
      goToLower (goTrim e) = "gzip" ∨ goToLower (goTrim e) = "br") := by
  constructor
  · exact c5_decompression_layers.2.1 c5resp (by decide)
  · exact c5_decompression_layers.2.2 c5resp (.plain "hello") false
      (c5_decompression_layers.2.1 c5resp (by decide))

/-- Witness for c2_session_precedence_amended: with an explicit
Authorization of Bearer explicit, two different stores (one holding a
session for the host, one empty) produce the identical untouched request
and no note. -/
theorem c2_session_precedence_amended_witness :
    autoApplySession c2store
        { method := "GET", url := "https://api.example.com/x",
          headers := [("Authorization", "Bearer explicit")], cookies := [], body := none }
        { initPlan .read "https://api.example.com/x" with
            headers := [("Authorization", "Bearer explicit")] } =
      ({ method := "GET", url := "https://api.example.com/x",
         headers := [("Authorization", "Bearer explicit")], cookies := [], body := none },
        none) ∧
    autoApplySession c2store
        { method := "GET", url := "https://api.example.com/x",
          headers := [("Authorization", "Bearer explicit")], cookies := [], body := none }
        { initPlan .read "https://api.example.com/x" with
            headers := [("Authorization", "Bearer explicit")] } =
      autoApplySession (fun _ => none)
        { method := "GET", url := "https://api.example.com/x",
          headers := [("Authorization", "Bearer explicit")], cookies := [], body := none }
        { initPlan .read "https://api.example.com/x" with
            headers := [("Authorization", "Bearer explicit")] } :=
  c2_session_precedence_amended c2store (fun _ => none) _ _ (Or.inl (by decide))

/-! ### Concrete servers and plans for the redirect-policy claims -/

/-- Server: u0 and u1 answer 301 pointing one step on, everything else 200. -/
def srvChain2 : Request → Response := fun req =>
  if req.url = "u0" then { status := 301, headers := [("Location", "u1")], body := .plain "" }
  else if req.url = "u1" then { status := 301, headers := [("Location", "u2")], body := .plain "" }
  else { status := 200, headers := [], body := .plain "ok" }

/-- Server: u0 answers 301 to u1; u1 answers 200 only to a GET. -/
def srvGetAfter301 : Request → Response := fun req =>
  if req.url = "u0" then { status := 301, headers := [("Location", "u1")], body := .plain "" }
  else if req.url = "u1" && req.method = "GET" then
    { status := 200, headers := [], body := .plain "ok" }
  else { status := 500, headers := [], body := .plain "" }

/-- Server: u0 answers 301 to u1; u1 answers 200 only to a HEAD. -/
def srvHeadAfter301 : Request → Response := fun req =>
  if req.url = "u0" then { status := 301, headers := [("Location", "u1")], body := .plain "" }
  else if req.url = "u1" && req.method = "HEAD" then
    { status := 200, headers := [], body := .plain "ok" }
  else { status := 500, headers := [], body := .plain "" }

/-- Server: u0 answers a Location-less 301; everything else 200. -/
def srvBare301 : Request → Response := fun req =>
  if req.url = "u0" then { status := 301, headers := [], body := .plain "" }
  else { status := 200, headers := [], body := .plain "ok" }

/-- Server: u0 answers 300 (a non-redirect 3xx the Go client returns as
final) with a Location to u1; u1 answers 200 only to a bodyless request. -/
def srv300 : Request → Response := fun req =>
  if req.url = "u0" then { status := 300, headers := [("Location", "u1")], body := .plain "" }
  else if req.url = "u1" && req.body.isNone then
    { status := 200, headers := [], body := .plain "ok" }
  else { status := 500, headers := [], body := .plain "" }

/-- Server: u0 answers 301 to u1; u1 answers 200 with a Set-Cookie header. -/
def srvCookieFinal : Request → Response := fun req =>
  if req.url = "u0" then { status := 301, headers := [("Location", "u1")], body := .plain "" }
  else { status := 200, headers := [("Set-Cookie", "sess=abc")], body := .plain "ok" }

/-- Helper of srvChainN. -/
def srvChainNAux : Nat → Nat → Request → Response
  | 0, _, _ => { status := 200, headers := [], body := .plain "ok" }
  | n + 1, i, req =>
    if req.url = "u" ++ toString i then
      { status := 301, headers := [("Location", "u" ++ toString (i + 1))], body := .plain "" }
    else srvChainNAux n (i + 1) req

/-- Chain of n redirects: u0 … u(n-1) answer 301 one step on, all later
URLs answer 200. -/
def srvChainN (n : Nat) : Request → Response := fun req =>
  srvChainNAux n 0 req

/-- Server for the smart-follow chain: every hop demands a POST carrying
body B; u0 and u1 answer 307 one step on, u2 answers 200. -/
def srvSmart307 : Request → Response := fun req =>
  if !(req.method = "POST" && req.body = some "B") then
    { status := 500, headers := [], body := .plain "" }
  else if req.url = "u0" then { status := 307, headers := [("Location", "u1")], body := .plain "" }
  else if req.url = "u1" then { status := 307, headers := [("Location", "u2")], body := .plain "" }
  else { status := 200, headers := [], body := .plain "ok" }

/-- Read plan against u0. -/
def planReadGet : ExecutionPlan := { initPlan .read "u0" with method := "GET" }

/-- Save plan with method POST (reachable via save using=POST). -/
def planSavePost : ExecutionPlan := { initPlan .save "u0" with method := "POST" }

/-- Upload plan with method POST. -/
def planUploadPost : ExecutionPlan := { initPlan .upload "u0" with method := "POST" }

/-- Send plan with method POST and no follow clause. -/
def planSendPost : ExecutionPlan := { initPlan .send "u0" with method := "POST" }

/-- Send plan with method POST and follow=smart. -/
def planSendSmart : ExecutionPlan :=
  { initPlan .send "u0" with method := "POST", follow := "smart" }

/-- Read plan with method HEAD (reachable via read using=HEAD). -/
def planReadHead : ExecutionPlan := { initPlan .read "u0" with method := "HEAD" }

/-- Initial GET request to u0. -/
def reqGet0 : Request := { method := "GET", url := "u0", headers := [], cookies := [], body := none }

/-- Initial POST request to u0 carrying body B. -/
def reqPost0 : Request :=
  { method := "POST", url := "u0", headers := [], cookies := [], body := some "B" }

/-- Initial HEAD request to u0. -/
def reqHead0 : Request :=
  { method := "HEAD", url := "u0", headers := [], cookies := [], body := none }

/-- C3 counterexample: four concrete behaviors refuting parts of the claim
as stated.  (i) a save plan with method POST (no follow=smart) follows a
301 — so write methods are not the deciding factor, the verb is; (ii) a
send plan with method POST and no follow clause also follows a
Location-bearing 301 (switching to GET), with no advisory line and the 200
as final response — the executor client has a nil CheckRedirect, which in
Go means the default following policy, not no-following; (iii) authenticate
survives a chain of six redirects with no per-hop trace, because each
client.Do of its loop default-follows the whole chain itself, so there is
no five-hop cap for it; (iv) read with method HEAD keeps HEAD across a 301
instead of switching to GET. -/
theorem c3_redirect_policy_counterexample :
    executeWithRedirects planSavePost srvGetAfter301
        { method := "POST", url := "u0", headers := [], cookies := [], body := none } =
      .ok ({ status := 200, headers := [], body := .plain "ok" }, ["→ 301 GET u1"]) ∧
    executeWithRedirects planSendPost srvGetAfter301 reqPost0 =
      .ok ({ status := 200, headers := [], body := .plain "ok" }, []) ∧
    (executeCapturing (srvChainN 6) [] 5 reqGet0 [] []).map
      (fun p => (p.1.status, p.2.1.length)) = .ok (200, 0) ∧
    executeWithRedirects planReadHead srvHeadAfter301 reqHead0 =
      .ok ({ status := 200, headers := [], body := .plain "ok" }, ["→ 301 HEAD u1"]) := by
  refine ⟨by decide, by decide, by decide, by decide⟩

/-- A default-policy exchange stops at a response that is not an actionable
redirect status or that carries no Location, returning it as final. -/
theorem defaultFollowLoop_stop (server : Request → Response) (fuel via : Nat) (req : Request)
    (h : isRedirectStatus (server req).status = false ∨
      headerGet (server req).headers "Location" = "") :
    defaultFollowLoop server (fuel + 1) req via = .ok (server req) := by
  rcases h with h | h <;> simp [defaultFollowLoop, h]

/-- A default-policy exchange follows a Location-bearing redirect while the
count of requests made so far is below ten. -/
theorem defaultFollowLoop_hop (server : Request → Response) (fuel via : Nat) (req : Request)
    (hvia : via < 10)
    (h1 : isRedirectStatus (server req).status = true)
    (h2 : headerGet (server req).headers "Location" ≠ "") :
    defaultFollowLoop server (fuel + 1) req via =
      defaultFollowLoop server fuel
        (redirectNewRequest req (server req).status (headerGet (server req).headers "Location"))
        (via + 1) := by
  simp [defaultFollowLoop, h1, h2, Nat.not_le.mpr hvia]

/-- C3 as amended: (1) a plan whose verb is not read, save or authenticate,
without follow=smart, runs on the client whose nil CheckRedirect means the
Go default policy, so with a write method a Location-less 301, 302 or 303
comes back as the final response together with the advisory trace line,
while (2) a Location-bearing redirect of any redirect status is followed —
silently, with no advisory — to its next response; (3) for followed
redirects, 301, 302 and 303 switch methods other than GET and HEAD to GET
and drop the body while 307 and 308 preserve method and body, as the
next-request constructions state; (4) read follows via the counting closure:
a 301,301,200 chain yields two trace lines, at most five hops are taken, and
a sixth pending redirect is the terminal stopped-after-5 error; (5) a send
plan with method POST default-follows a 301,301,200 chain tracelessly,
survives nine chained redirects, and errors with the stopped-after-10
message on a tenth; (6) the authenticate exchange default-follows inside
each client call: a 307,307,200 chain keeps the POST method and body with no
trace, nine chained redirects succeed and ten are the stopped-after-10
error, the Set-Cookie header of the final response is captured and the jar
contents are appended as name=value, and only a non-redirect 3xx such as a
Location-bearing 300 is reissued by the outer loop itself — bodiless,
keeping the method, with a trace line naming the pre-hop method. -/
theorem c3_redirect_policy_amended :
    (∀ (plan : ExecutionPlan) (server : Request → Response) (req : Request),
      plan.follow ≠ "smart" → plan.verb ≠ .read → plan.verb ≠ .save →
      plan.verb ≠ .authenticate → isWriteVerbMethod plan.method = true →
      ((server req).status = 301 ∨ (server req).status = 302 ∨ (server req).status = 303) →
      headerGet (server req).headers "Location" = "" →
      executeWithRedirects plan server req = .ok (server req,
        ["Advisory: " ++ toString (server req).status ++
          " redirect for write verb, not following"])) ∧
    (∀ (plan : ExecutionPlan) (server : Request → Response) (req : Request) (loc : String),
      plan.follow ≠ "smart" → plan.verb ≠ .read → plan.verb ≠ .save →
      plan.verb ≠ .authenticate →
      isRedirectStatus (server req).status = true →
      headerGet (server req).headers "Location" = loc → loc ≠ "" →
      (server (redirectNewRequest req (server req).status loc)).status = 200 →
      executeWithRedirects plan server req =
        .ok (server (redirectNewRequest req (server req).status loc), [])) ∧
    (∀ (req : Request) (loc : String) (s : Nat), s = 301 ∨ s = 302 ∨ s = 303 →
      redirectNewRequest req s loc =
        { req with
            method := if req.method = "GET" || req.method = "HEAD" then req.method else "GET",
            url := loc, body := none }) ∧
    (∀ (req : Request) (loc : String) (s : Nat), s = 307 ∨ s = 308 →
      redirectNewRequest req s loc = { req with url := loc }) ∧
    executeWithRedirects planReadGet srvChain2 reqGet0 =
      .ok ({ status := 200, headers := [], body := .plain "ok" },
        ["→ 301 GET u1", "→ 301 GET u2"]) ∧
    (executeWithRedirects planReadGet (srvChainN 5) reqGet0).map
      (fun p => (p.1.status, p.2.length)) = .ok (200, 5) ∧
    executeWithRedirects planReadGet (srvChainN 6) reqGet0 =
      .error "stopped after 5 redirects" ∧
    executeWithRedirects planSendPost srvChain2 reqPost0 =
      .ok ({ status := 200, headers := [], body := .plain "ok" }, []) ∧
    (executeWithRedirects planSendPost (srvChainN 9) reqPost0).map
      (fun p => (p.1.status, p.2.length)) = .ok (200, 0) ∧
    executeWithRedirects planSendPost (srvChainN 10) reqPost0 =
      .error "stopped after 10 redirects" ∧
    executeCapturing srvSmart307 [] 5 reqPost0 [] [] =
      .ok ({ status := 200, headers := [], body := .plain "ok" }, [], []) ∧
    (executeCapturing (srvChainN 9) [] 5 reqGet0 [] []).map
      (fun p => (p.1.status, p.2.1.length)) = .ok (200, 0) ∧
    executeCapturing (srvChainN 10) [] 5 reqGet0 [] [] =
      .error "stopped after 10 redirects" ∧
    executeCapturing srvCookieFinal [("mid", "1")] 5 reqGet0 [] [] =
      .ok ({ status := 200, headers := [("Set-Cookie", "sess=abc")], body := .plain "ok" },
        [], ["sess=abc", "mid=1"]) ∧
    executeCapturing srv300 [] 5 reqPost0 [] [] =
      .ok ({ status := 200, headers := [], body := .plain "ok" }, ["→ 300 POST u1"], []) := by
  refine ⟨?_, ?_, ?_, ?_, by decide, by decide, by decide, by decide, by decide, by decide,
    by decide, by decide, by decide, by decide, by decide⟩
  · intro plan server req hfollow hr hs ha hw h3 hloc
    have hsf : shouldFollow plan = false := by
      simp [shouldFollow, hfollow, hr, hs, ha]
    have hstop : defaultFollowLoop server 11 req 1 = .ok (server req) :=
      defaultFollowLoop_stop server 10 1 req (Or.inr hloc)
    rcases h3 with h | h | h <;>
      simp [executeWithRedirects, hsf, hstop, hw, h]
  · intro plan server req loc hfollow hr hs ha hred hloc hne h200
    have hsf : shouldFollow plan = false := by
      simp [shouldFollow, hfollow, hr, hs, ha]
    have hne2 : headerGet (server req).headers "Location" ≠ "" := by
      rw [hloc]; exact hne
    have hhop := defaultFollowLoop_hop server 10 1 req (by decide) hred hne2
    rw [hloc] at hhop
    have hc2 : isRedirectStatus
        (server (redirectNewRequest req (server req).status loc)).status = false := by
      rw [h200]; decide
    have hstep : defaultFollowLoop server 11 req 1 =
        .ok (server (redirectNewRequest req (server req).status loc)) :=
      hhop.trans
        (defaultFollowLoop_stop server 9 2 (redirectNewRequest req (server req).status loc)
          (Or.inl hc2))
    simp [executeWithRedirects, hsf, hstep, h200]
  · intro req loc s h
    rcases h with h | h | h <;> subst h <;> rfl
  · intro req loc s h
    rcases h with h | h <;> subst h <;> rfl

/-- Witness for c3_redirect_policy_amended: an upload plan with method POST
meeting a Location-less 301 keeps it as the final response and receives the
advisory trace line. -/
theorem c3_redirect_policy_amended_witness :
    executeWithRedirects planUploadPost srvBare301 reqPost0 =
      .ok (srvBare301 reqPost0,
        ["Advisory: " ++ toString (srvBare301 reqPost0).status ++
          " redirect for write verb, not following"]) :=
  c3_redirect_policy_amended.1 planUploadPost srvBare301 reqPost0
    (by decide) (by decide) (by decide) (by decide) (by decide) (by decide) (by decide)

/-- C4: with follow=smart and a write-verb plan, a 301, 302 or 303 redirect
is rejected with the use-307/308 error instead of being followed; the next
request built for a 307 or 308 hop preserves method and body exactly; and a
send follow=smart POST against a 307,307,200 chain whose every hop demands
the original method and body reaches 200 with both hops traced. -/
theorem c4_smart_follow :
    (∀ (plan : ExecutionPlan) (server : Request → Response) (req : Request),
      plan.follow = "smart" → isWriteVerbMethod plan.method = true →
      ((server req).status = 301 ∨ (server req).status = 302 ∨ (server req).status = 303) →
      headerGet (server req).headers "Location" ≠ "" →
      executeWithRedirects plan server req =
        .error ("write verb: not following " ++ toString (server req).status ++
          " redirect (use 307/308)")) ∧
    (∀ (req : Request) (loc : String) (s : Nat), s = 307 ∨ s = 308 →
      redirectNewRequest req s loc = { req with url := loc }) ∧
    executeWithRedirects planSendSmart srvSmart307 reqPost0 =
      .ok ({ status := 200, headers := [], body := .plain "ok" },
        ["→ 307 POST u1", "→ 307 POST u2"]) := by
  refine ⟨?_, ?_, by decide⟩
  · intro plan server req hsmart hw h3 hloc
    have hsf : shouldFollow plan = true := by simp [shouldFollow, hsmart]
    have hlocb : decide (headerGet (server req).headers "Location" ≠ "") = true :=
      decide_eq_true hloc
    rcases h3 with h | h | h <;>
      simp [executeWithRedirects, followLoop, hsf, h, hlocb, hsmart, hw, isRedirectStatus]
  · intro req loc s h
    rcases h with h | h <;> subst h <;> rfl

/-- Witness for c4_smart_follow: the smart send POST plan against the
301-first server is rejected with the use-307/308 error. -/
theorem c4_smart_follow_witness :
    executeWithRedirects planSendSmart srvGetAfter301 reqPost0 =
      .error ("write verb: not following " ++ toString (srvGetAfter301 reqPost0).status ++
        " redirect (use 307/308)") :=
  c4_smart_follow.1 planSendSmart srvGetAfter301 reqPost0 rfl (by decide)
    (by decide) (by decide)

end Req
